import Mathlib

/-!
Verification development for the Trip-Planner HOS (hours-of-service) core,
a shallow embedding of `backend/server/trip_planning/services.py`.

Conventions of the embedding:
* Python floats are modelled as `ℚ` (the program only ever adds, subtracts,
  multiplies and divides route data; no float-specific behaviour is claimed).
* Timestamps (`datetime`) are modelled as rational hours on an absolute axis;
  `timedelta(hours=h)` is addition.  The wall clock `datetime.now()` read at
  services.py line 106 is modelled as an explicit parameter `now`.
* `a / b` on `ℚ` is total with `a / 0 = 0`; the Python code would raise
  `ZeroDivisionError` there instead.  No claim below depends on a division
  by zero.
* Loops whose termination is data-dependent take a `fuel : ℕ` argument and
  return the state reached so far when the fuel runs out.
-/

/- Core marks the `Rat` field operations irreducible, which blocks `decide`
on concrete rational computations; restore reducibility so that closed
runs of the embedded functions can be evaluated by the kernel. -/
set_option allowUnsafeReducibility true in
attribute [semireducible] Rat.add Rat.sub Rat.mul Rat.div Rat.neg Rat.normalize
  Rat.blt Rat.inv Rat.floor Rat.ceil

namespace TripPlan

/-- Duty status strings of the source. -/
inductive DutyStatus where
  | off_duty
  | sleeper_berth
  | driving
  | on_duty_not_driving
deriving DecidableEq, Repr, Inhabited

/-- The stop types emitted by the Planner (`'rest'`, `'fuel'`, `'overnight'`). -/
inductive StopType where
  | rest
  | fuel
  | overnight
deriving DecidableEq, Repr, Inhabited

/- Constants for HOS regulations (services.py lines 17-26). -/

def MAX_DRIVING_TIME : ℚ := 11

def MAX_ON_DUTY_TIME : ℚ := 14

def MAX_CYCLE_TIME : ℚ := 70

def MANDATORY_BREAK_TIME : ℚ := 1/2

def MAX_DRIVING_BEFORE_BREAK : ℚ := 8

def FUEL_STOP_DURATION : ℚ := 1/2

def MAX_DISTANCE_BEFORE_FUEL : ℚ := 1000

def PICKUP_DROPOFF_TIME : ℚ := 1

def MANDATORY_RESET_BREAK : ℚ := 10

def AVERAGE_SPEED : ℚ := 55

/-- A route segment as consumed by `calculate_rest_stops`
(coordinates are `(longitude, latitude)` pairs as in the source). -/
structure Segment where
  index : ℕ
  distance : ℚ
  duration : ℚ
  start_coord : ℚ × ℚ
  end_coord : ℚ × ℚ
deriving DecidableEq, Repr, Inhabited

/-- The `route_data` dict: only `segments` and `total_distance` are read
(line 103-104); `total_distance` is assigned and then never used. -/
structure RouteData where
  segments : List Segment
  total_distance : ℚ
deriving DecidableEq, Repr, Inhabited

/-- A stop dict appended to `rest_stops` (lines 136-143 etc.).  The `name`
field (`"Rest Break {n}"` etc.) is determined by the type together with the
position in the list and is not modelled separately. -/
structure Stop where
  type : StopType
  latitude : ℚ
  longitude : ℚ
  estimated_arrival : ℚ
  duration : ℚ
deriving DecidableEq, Repr, Inhabited

/-- One step of the Planner's simulated timeline: a stretch of driving,
the fixed 1-hour on-duty charge at pickup (line 121-123), or an emitted
stop.  The trace records exactly how `current_time` advances, in order. -/
inductive PlanStep where
  | drive (d : ℚ)
  | duty (d : ℚ)
  | stop (s : Stop)
deriving DecidableEq, Repr, Inhabited

/-- The Planner's mutable state (lines 106-113) plus the emitted stops and
the timeline trace.  `current_position` (lines 114, 120, 124, 200) is
write-only in the source and is not modelled. -/
structure PState where
  current_time : ℚ
  remaining_drive_time : ℚ
  remaining_on_duty_time : ℚ
  remaining_cycle_time : ℚ
  time_since_break : ℚ
  distance_since_fuel : ℚ
  rest_stops : List Stop
  trace : List PlanStep
deriving DecidableEq, Repr, Inhabited

/-- Lines 119-124: the fixed pickup charge applied when entering segment 0. -/
def pickupCharge (st : PState) : PState :=
  { st with
      current_time := st.current_time + PICKUP_DROPOFF_TIME
      remaining_on_duty_time := st.remaining_on_duty_time - PICKUP_DROPOFF_TIME
      remaining_cycle_time := st.remaining_cycle_time - PICKUP_DROPOFF_TIME
      trace := st.trace ++ [.duty PICKUP_DROPOFF_TIME] }

/-- Lines 132-152: the mandatory 30-minute break branch.  Returns the new
state together with the updated `segment_time` and `possible_distance`.
Note that `remaining_drive_time` is not charged here, and the break's
half hour is charged to on-duty but not to cycle time (lines 147-148). -/
def restBreakBranch (seg : Segment) (segTime possDist : ℚ) (st : PState) :
    PState × ℚ × ℚ :=
  let dtbb := MAX_DRIVING_BEFORE_BREAK - st.time_since_break
  let ddbb := dtbb / seg.duration * possDist
  let s : Stop :=
    { type := .rest
      latitude := seg.start_coord.2
      longitude := seg.start_coord.1
      estimated_arrival := st.current_time + dtbb
      duration := MANDATORY_BREAK_TIME }
  ({ st with
      current_time := st.current_time + dtbb + MANDATORY_BREAK_TIME
      time_since_break := 0
      remaining_on_duty_time := st.remaining_on_duty_time - (dtbb + MANDATORY_BREAK_TIME)
      remaining_cycle_time := st.remaining_cycle_time - dtbb
      distance_since_fuel := st.distance_since_fuel + ddbb
      rest_stops := st.rest_stops ++ [s]
      trace := st.trace ++ [.drive dtbb, .stop s] },
    segTime - dtbb, possDist - ddbb)

/-- Lines 154-174: the fuel stop branch.  Resets only `distance_since_fuel`. -/
def fuelBranch (seg : Segment) (segTime possDist : ℚ) (st : PState) :
    PState × ℚ × ℚ :=
  let dbf := MAX_DISTANCE_BEFORE_FUEL - st.distance_since_fuel
  let tbf := dbf / possDist * segTime
  let s : Stop :=
    { type := .fuel
      latitude := seg.start_coord.2
      longitude := seg.start_coord.1
      estimated_arrival := st.current_time + tbf
      duration := FUEL_STOP_DURATION }
  ({ st with
      current_time := st.current_time + tbf + FUEL_STOP_DURATION
      time_since_break := st.time_since_break + tbf
      remaining_on_duty_time := st.remaining_on_duty_time - (tbf + FUEL_STOP_DURATION)
      remaining_cycle_time := st.remaining_cycle_time - (tbf + FUEL_STOP_DURATION)
      distance_since_fuel := 0
      rest_stops := st.rest_stops ++ [s]
      trace := st.trace ++ [.drive tbf, .stop s] },
    segTime - tbf, possDist - dbf)

/-- Lines 176-190: the overnight rest branch.  It restores the 11-hour and
14-hour budgets and clears `time_since_break`, but leaves
`remaining_cycle_time` untouched; `segment_time` and `possible_distance`
are unchanged. -/
def overnightBranch (seg : Segment) (st : PState) : PState :=
  let s : Stop :=
    { type := .overnight
      latitude := seg.start_coord.2
      longitude := seg.start_coord.1
      estimated_arrival := st.current_time
      duration := MANDATORY_RESET_BREAK }
  { st with
      current_time := st.current_time + MANDATORY_RESET_BREAK
      remaining_drive_time := MAX_DRIVING_TIME
      remaining_on_duty_time := MAX_ON_DUTY_TIME
      time_since_break := 0
      rest_stops := st.rest_stops ++ [s]
      trace := st.trace ++ [.stop s] }

/-- Lines 192-201: drive the whole remaining segment. -/
def driveRestBranch (segTime possDist : ℚ) (st : PState) : PState :=
  { st with
      current_time := st.current_time + segTime
      time_since_break := st.time_since_break + segTime
      remaining_drive_time := st.remaining_drive_time - segTime
      remaining_on_duty_time := st.remaining_on_duty_time - segTime
      remaining_cycle_time := st.remaining_cycle_time - segTime
      distance_since_fuel := st.distance_since_fuel + possDist
      trace := st.trace ++ [.drive segTime] }

/-- Lines 131-201: the `while segment_time > 0` loop for one segment. -/
def segLoop (fuel : ℕ) (seg : Segment) (segTime possDist : ℚ) (st : PState) :
    PState :=
  match fuel with
  | 0 => st
  | f + 1 =>
    if 0 < segTime then
      if MAX_DRIVING_BEFORE_BREAK < st.time_since_break + segTime then
        match restBreakBranch seg segTime possDist st with
        | (st', t', d') => segLoop f seg t' d' st'
      else if MAX_DISTANCE_BEFORE_FUEL < st.distance_since_fuel + possDist then
        match fuelBranch seg segTime possDist st with
        | (st', t', d') => segLoop f seg t' d' st'
      else if st.remaining_on_duty_time < segTime ∨
          st.remaining_drive_time < segTime then
        segLoop f seg segTime possDist (overnightBranch seg st)
      else
        segLoop f seg 0 possDist (driveRestBranch segTime possDist st)
    else st

/-- Lines 118-201: the `for i, segment in enumerate(segments)` loop. -/
def planSegs (fuel : ℕ) : List Segment → ℕ → PState → PState
  | [], _, st => st
  | seg :: rest, i, st =>
    let st0 := if i = 0 then pickupCharge st else st
    planSegs fuel rest (i + 1) (segLoop fuel seg seg.duration seg.distance st0)

/-- Line 106-113: initial Planner state; `now` models `datetime.now()`. -/
def initPState (currentCycleHours now : ℚ) : PState :=
  { current_time := now
    remaining_drive_time := MAX_DRIVING_TIME
    remaining_on_duty_time := MAX_ON_DUTY_TIME
    remaining_cycle_time := MAX_CYCLE_TIME - currentCycleHours
    time_since_break := 0
    distance_since_fuel := 0
    rest_stops := []
    trace := [] }

/-- Lines 92-208, `calculate_rest_stops`, including the trailing dropoff
charge (lines 203-205), returning the full final state. -/
def planRun (route : RouteData) (currentCycleHours now : ℚ) (fuel : ℕ) :
    PState :=
  let st := planSegs fuel route.segments 0 (initPState currentCycleHours now)
  if route.segments.isEmpty then st
  else
    { st with
        remaining_on_duty_time := st.remaining_on_duty_time - PICKUP_DROPOFF_TIME
        remaining_cycle_time := st.remaining_cycle_time - PICKUP_DROPOFF_TIME }

/-- The value the Python function returns: the `rest_stops` list. -/
def calculate_rest_stops (route : RouteData) (currentCycleHours now : ℚ)
    (fuel : ℕ) : List Stop :=
  (planRun route currentCycleHours now fuel).rest_stops

/-- Stop types that reset the Planner's `time_since_break` counter
(the rest branch sets it to 0 at line 146; the overnight branch at
line 189; the fuel branch leaves it accumulating, line 168). -/
def tsReset : StopType → Bool
  | .rest => true
  | .overnight => true
  | .fuel => false

/-- The value of the accumulated-driving-since-break counter after
replaying a trace from accumulator `acc`; mirrors how
`time_since_break` evolves along the timeline. -/
def accAfter : ℚ → List PlanStep → ℚ
  | acc, [] => acc
  | acc, .drive d :: r => accAfter (acc + d) r
  | acc, .duty _ :: r => accAfter acc r
  | acc, .stop s :: r => accAfter (if tsReset s.type then 0 else acc) r

/-- The 8-hour-rule check on a Planner timeline: replaying the trace, the
accumulated driving since the last `time_since_break`-resetting stop never
exceeds `MAX_DRIVING_BEFORE_BREAK`. -/
def driveOK : ℚ → List PlanStep → Bool
  | _, [] => true
  | acc, .drive d :: r =>
    decide (acc + d ≤ MAX_DRIVING_BEFORE_BREAK) && driveOK (acc + d) r
  | acc, .duty _ :: r => driveOK acc r
  | acc, .stop s :: r => driveOK (if tsReset s.type then 0 else acc) r

/-- All driving stretches of a trace are non-negative. -/
def nonnegDrives : List PlanStep → Bool
  | [] => true
  | .drive d :: r => decide (0 ≤ d) && nonnegDrives r
  | .duty _ :: r => nonnegDrives r
  | .stop _ :: r => nonnegDrives r

/-- A Planner timeline condensed to maximal driving stretches (merging
adjacent driving steps; the non-stop on-duty charge is transparent)
and the stop events separating them. -/
def coalesce : List PlanStep → List (ℚ ⊕ StopType)
  | [] => []
  | .duty _ :: r => coalesce r
  | .stop s :: r => .inr s.type :: coalesce r
  | .drive d :: r =>
    match coalesce r with
    | .inl d' :: r' => .inl (d + d') :: r'
    | r' => .inl d :: r'

/-- For every pair of consecutive driving stretches in a condensed
timeline: if their combined duration exceeds 11 h, an `overnight` stop
separates them, and if it exceeds 8 h, a break (`rest`) or an
`overnight` stop separates them. -/
def checkAdjacent : ℚ → List StopType → List (ℚ ⊕ StopType) → Bool
  | _, _, [] => true
  | prev, seps, .inr t :: r => checkAdjacent prev (seps ++ [t]) r
  | prev, seps, .inl d :: r =>
    (decide (prev + d ≤ MAX_DRIVING_TIME) || seps.contains .overnight) &&
    (decide (prev + d ≤ MAX_DRIVING_BEFORE_BREAK) || seps.contains .overnight ||
      seps.contains .rest) &&
    checkAdjacent d [] r

/-- Claim C1's property, as stated, evaluated on a Planner timeline. -/
def claimC1check (tr : List PlanStep) : Bool :=
  match coalesce tr with
  | .inl d :: r => checkAdjacent d [] r
  | r => checkAdjacent 0 [] r

/-- Validity of a Planner input in the sense of claims C1/C2:
non-empty segments, non-negative distances and durations. -/
def validSegments (route : RouteData) : Bool :=
  !route.segments.isEmpty &&
    route.segments.all (fun s => decide (0 ≤ s.distance) && decide (0 ≤ s.duration))

/- Concrete routes used in counterexamples and witnesses. -/

/-- A 9-hour, 100-mile segment. -/
def seg9 (i : ℕ) : Segment :=
  { index := i, distance := 100, duration := 9, start_coord := (0, 0),
    end_coord := (1, 1) }

/-- Two consecutive 9-hour segments: 18 h of driving in total. -/
def c1route : RouteData := { segments := [seg9 0, seg9 1], total_distance := 200 }

/-- A single 1-hour, 10-mile segment. -/
def c2route : RouteData :=
  { segments := [{ index := 0, distance := 10, duration := 1,
                   start_coord := (0, 0), end_coord := (1, 1) }],
    total_distance := 10 }

/-- A single 13.6-hour, 100-mile segment (forces one rest break and one
overnight stop). -/
def c5route : RouteData :=
  { segments := [{ index := 0, distance := 100, duration := 68/5,
                   start_coord := (0, 0), end_coord := (1, 1) }],
    total_distance := 100 }

/-- Shift the remaining cycle budget of a Planner state by a constant. -/
def cycShift (d : ℚ) (st : PState) : PState :=
  { st with remaining_cycle_time := st.remaining_cycle_time + d }

/-- Shift a stop's arrival timestamp by a constant. -/
def shiftStop (d : ℚ) (s : Stop) : Stop :=
  { s with estimated_arrival := s.estimated_arrival + d }

/-- Shift the timestamps occurring in a timeline step. -/
def shiftStep (d : ℚ) : PlanStep → PlanStep
  | .stop s => .stop (shiftStop d s)
  | .drive q => .drive q
  | .duty q => .duty q

/-- Shift all absolute timestamps of a Planner state by a constant. -/
def timeShift (d : ℚ) (st : PState) : PState :=
  { st with
      current_time := st.current_time + d
      rest_stops := st.rest_stops.map (shiftStop d)
      trace := st.trace.map (shiftStep d) }

/-! ## Lemmas and theorems -/

@[simp] lemma cycShift_time_since_break (d : ℚ) (st : PState) :
    (cycShift d st).time_since_break = st.time_since_break := rfl

@[simp] lemma cycShift_distance_since_fuel (d : ℚ) (st : PState) :
    (cycShift d st).distance_since_fuel = st.distance_since_fuel := rfl

@[simp] lemma cycShift_remaining_on_duty_time (d : ℚ) (st : PState) :
    (cycShift d st).remaining_on_duty_time = st.remaining_on_duty_time := rfl

@[simp] lemma cycShift_remaining_drive_time (d : ℚ) (st : PState) :
    (cycShift d st).remaining_drive_time = st.remaining_drive_time := rfl

@[simp] lemma cycShift_rest_stops (d : ℚ) (st : PState) :
    (cycShift d st).rest_stops = st.rest_stops := rfl

/-! ## Duty Timeline Builder (`generate_eld_logs_service`, lines 209-1089)

Timestamps are rational hours on an absolute axis; a calendar date is the
integer `⌊t / 24⌋`.  `timezone.make_aware` (lines 243, 257, 267, 280) is the
identity here: all timestamps entering the embedding are already absolute.
The `waypoints` QuerySet is modelled as a list in the model's default
`sequence` ordering, so `.first()` is the head of the filtered list. -/

/-- Python `int()` applied to a rational: truncation toward zero. -/
def pyInt (q : ℚ) : ℤ := if 0 ≤ q then ⌊q⌋ else -⌊-q⌋

/-- The calendar date (day number) containing instant `t`. -/
def dayOf (t : ℚ) : ℤ := ⌊t / 24⌋

/-- `hour * 60 + minute` of the instant `t` (seconds are truncated away),
as in `update_log_grid` (lines 1058-1059). -/
def minuteOfDay (t : ℚ) : ℤ := ⌊(t - 24 * (dayOf t : ℚ)) * 60⌋

/-- Event dict types flowing through the Builder: the five waypoint types
plus the two synthetic types inserted during enforcement
(`reset_break`, `mandatory_break`). -/
inductive EvType where
  | pickup
  | dropoff
  | rest
  | fuel
  | overnight
  | mandatory_break
  | reset_break
deriving DecidableEq, Repr, Inhabited

/-- An event dict (lines 258-286, 309-314, 358-363 …). `location` holds the
location's id when the location object has one (`hasattr(..., 'id')`). -/
structure Event where
  type : EvType
  time : ℚ
  duration : ℚ
  location : Option ℕ
deriving DecidableEq, Repr, Inhabited

/-- A waypoint row as read by the Builder. -/
structure Waypoint where
  waypoint_type : EvType
  estimated_arrival : ℚ
  planned_duration : ℚ
  location : Option ℕ
  route_id : ℕ
deriving DecidableEq, Repr, Inhabited

/-- The fields of the Trip model the Builder reads. -/
structure Trip where
  user : ℕ
  start_time : ℚ
  current_location : Option ℕ
deriving DecidableEq, Repr, Inhabited

/-- The fields of the Route model the Builder reads. -/
structure Route where
  id : ℕ
deriving DecidableEq, Repr, Inhabited

/-- The authenticated user. -/
structure UserT where
  id : ℕ
deriving DecidableEq, Repr, Inhabited

/-- A log entry dict (e.g. lines 430-436, 573-580). -/
structure LogEntry where
  start_time : ℚ
  end_time : ℚ
  status : DutyStatus
  location_id : Option ℕ
  activity : Option String
  notes : String
deriving DecidableEq, Repr, Inhabited

/-- A daily log dict (`initialize_daily_log`, lines 1074-1089).  The grid
(`log_data`) is the status of each of the 96 15-minute slots; the slot's
constant `time` field is its index times 15. -/
structure DailyLog where
  date : ℤ
  starting_odometer : ℤ
  ending_odometer : ℤ
  total_driving_hours : ℚ
  total_on_duty_hours : ℚ
  total_off_duty_hours : ℚ
  total_sleeper_berth_hours : ℚ
  log_data : List (Option DutyStatus)
deriving DecidableEq, Repr, Inhabited

/-- `initialize_log_grid` (lines 1052-1054): 96 empty 15-minute slots. -/
def initialize_log_grid : List (Option DutyStatus) :=
  List.replicate 96 none

/-- `update_log_grid` (lines 1056-1067). -/
def update_log_grid (g : List (Option DutyStatus)) (s e : ℚ)
    (status : DutyStatus) : List (Option DutyStatus) :=
  let sm := minuteOfDay s
  let em : ℤ := if dayOf s ≠ dayOf e then 1440 else minuteOfDay e
  let si := sm / 15
  let ei := em / 15
  g.mapIdx fun i v =>
    if si ≤ (i : ℤ) ∧ (i : ℤ) < min ei (g.length : ℤ) then some status else v

/-- `calculate_odometer` (lines 1069-1072): `int(starting + hours * 55)`. -/
def calculate_odometer (starting : ℤ) (driving_hours : ℚ) : ℤ :=
  pyInt ((starting : ℚ) + driving_hours * AVERAGE_SPEED)

/-- Lookup in the `daily_logs` dict (modelled as an insertion-ordered
association list). -/
def dlLookup (logs : List (ℤ × DailyLog)) (d : ℤ) : Option DailyLog :=
  (logs.find? fun p => p.1 = d).map fun p => p.2

/-- Point update of the `daily_logs` dict. -/
def dlUpdate (logs : List (ℤ × DailyLog)) (d : ℤ) (f : DailyLog → DailyLog) :
    List (ℤ × DailyLog) :=
  logs.map fun p => if p.1 = d then (p.1, f p.2) else p

/-- `initialize_daily_log` (lines 1074-1089). -/
def initialize_daily_log (d : ℤ) (previous : Option ℤ)
    (logs : List (ℤ × DailyLog)) : DailyLog :=
  let starting : ℤ :=
    match previous with
    | some p =>
      match dlLookup logs p with
      | some l => l.ending_odometer
      | none => 0
    | none => 0
  { date := d
    starting_odometer := starting
    ending_odometer := 0
    total_driving_hours := 0
    total_on_duty_hours := 0
    total_off_duty_hours := 0
    total_sleeper_berth_hours := 0
    log_data := initialize_log_grid }

/-- The `if current_date not in daily_logs: daily_logs[current_date] =
initialize_daily_log(current_date, current_date - timedelta(days=1),
daily_logs)` pattern (lines 346-347 and its copies). -/
def ensureDay (logs : List (ℤ × DailyLog)) (d : ℤ) : List (ℤ × DailyLog) :=
  match dlLookup logs d with
  | some _ => logs
  | none => logs ++ [(d, initialize_daily_log d (some (d - 1)) logs)]

/-- The per-status daily-total increments: a driving interval is added to
both `total_driving_hours` and `total_on_duty_hours` (lines 437-438);
the other statuses each feed exactly one total (lines 581, 716, 853). -/
def statusBump (l : DailyLog) (status : DutyStatus) (dur : ℚ) : DailyLog :=
  match status with
  | .driving =>
    { l with total_driving_hours := l.total_driving_hours + dur
             total_on_duty_hours := l.total_on_duty_hours + dur }
  | .on_duty_not_driving =>
    { l with total_on_duty_hours := l.total_on_duty_hours + dur }
  | .off_duty =>
    { l with total_off_duty_hours := l.total_off_duty_hours + dur }
  | .sleeper_berth =>
    { l with total_sleeper_berth_hours := l.total_sleeper_berth_hours + dur }

/-- The Builder's mutable state (lines 239-247, 324-332) together with the
live `events` list (mutated in place by the enforcement inserts).
`inserted` is instrumentation only: it counts the synthetic events
inserted by the enforcement blocks, so that theorems can hypothesise
"no synthetic event was inserted"; it affects nothing the source computes. -/
structure BState where
  log_entries : List LogEntry
  daily_logs : List (ℤ × DailyLog)
  current_status : DutyStatus
  status_start_time : ℚ
  cycle_driving_hours : ℚ
  cycle_on_duty_hours : ℚ
  driving_since_last_break : ℚ
  total_cycle_hours : ℚ
  last_reset_time : ℚ
  current_odometer : ℚ
  events : List Event
  inserted : ℕ
deriving DecidableEq, Repr, Inhabited

/-- Stable insertion of an event into a time-sorted list (an inserted
event goes after existing events with the same timestamp, matching
Python's stable `list.sort(key=...)`). -/
def insertByTime (e : Event) : List Event → List Event
  | [] => [e]
  | b :: r => if e.time < b.time then e :: b :: r else b :: insertByTime e r

/-- `events.sort(key=lambda x: x['time'])` — a stable sort by timestamp. -/
def sortEventsStable (l : List Event) : List Event :=
  l.foldl (fun acc e => insertByTime e acc) []

/-- Stable insertion of a waypoint into an arrival-sorted list. -/
def insertByArrival (w : Waypoint) : List Waypoint → List Waypoint
  | [] => [w]
  | b :: r =>
    if w.estimated_arrival < b.estimated_arrival then w :: b :: r
    else b :: insertByArrival w r

/-- `.order_by('estimated_arrival')` on the filtered stop waypoints. -/
def sortWaypointsByArrival (l : List Waypoint) : List Waypoint :=
  l.foldl (fun acc w => insertByArrival w acc) []

/-- Structural core of the fuel pre-pass; `fuel` is instantiated with
`es.length - i`, which the loop never exhausts (each iteration either
advances `i` by 1, or inserts one element and advances `i` by 2). -/
def fuelPrepassAux : ℕ → List Event → ℚ → ℕ → List Event
  | 0, es, _, _ => es
  | Nat.succ n, es, totalDistance, i =>
    if i + 1 < es.length then
      let se := es.getD i default
      let ee := es.getD (i + 1) default
      let dd := ee.time - (se.time + se.duration)
      if 0 < dd then
        let dist := dd * AVERAGE_SPEED
        let td := totalDistance + dist
        if MAX_DISTANCE_BEFORE_FUEL ≤ td then
          let rem := MAX_DISTANCE_BEFORE_FUEL - (td - dist)
          let ft := se.time + se.duration + rem / AVERAGE_SPEED
          if ft < ee.time then
            fuelPrepassAux n (es.insertIdx (i + 1)
              { type := .fuel, time := ft, duration := FUEL_STOP_DURATION,
                location := se.location }) 0 (i + 2)
          else fuelPrepassAux n es td (i + 1)
        else fuelPrepassAux n es td (i + 1)
      else fuelPrepassAux n es totalDistance (i + 1)
    else es

/-- The fuel-stop insertion pre-pass (lines 292-319).  `last_fuel_stop_time`
(lines 294, 316) is write-only in the source and not modelled. -/
def fuelPrepass (es : List Event) (totalDistance : ℚ) (i : ℕ) : List Event :=
  fuelPrepassAux (es.length - i) es totalDistance i

/-- Structural core of `logSpan`; `fuel` is instantiated with one more
than the number of midnights between `t` and `endT`, which the loop never
exhausts. -/
def logSpanAux (status : DutyStatus) (chargeDuty : Bool) (loc : Option ℕ)
    (activity : Option String) (notes : String) (endT : ℚ) :
    ℕ → ℚ → BState → BState × ℚ
  | 0, _, st => (st, 0)
  | Nat.succ n, t, st =>
    if t < endT then
      let d := dayOf t
      let logs1 := ensureDay st.daily_logs d
      let nd : ℚ := 24 * ((d : ℚ) + 1)
      let endSeg := min nd endT
      let dur := endSeg - t
      let entry : LogEntry :=
        { start_time := t, end_time := endSeg, status := status,
          location_id := loc, activity := activity, notes := notes }
      let logs2 := dlUpdate logs1 d fun l =>
        { statusBump l status dur with
            log_data := update_log_grid (statusBump l status dur).log_data t endSeg status }
      let st1 : BState :=
        { st with
            log_entries := st.log_entries ++ [entry]
            daily_logs := logs2
            cycle_on_duty_hours :=
              if chargeDuty then st.cycle_on_duty_hours + dur else st.cycle_on_duty_hours
            total_cycle_hours :=
              if chargeDuty then st.total_cycle_hours + dur else st.total_cycle_hours }
      if nd < endT then
        let r := logSpanAux status chargeDuty loc activity notes endT n nd st1
        (r.1, dur + r.2)
      else (st1, dur)
    else (st, 0)

/-- The shared day-splitting logging loop used for the fixed-status activity
intervals: pickup loading (lines 566-585), rest/fuel/mandatory-break
(702-718), overnight (839-856), reset break (873-889), dropoff unloading
(1011-1030).  `chargeDuty` is true for the pickup/dropoff variants, which
also charge `cycle_on_duty_hours` and `total_cycle_hours`.  Returns the
state and the logged duration total (the overnight branch's
`total_break_duration`). -/
def logSpan (status : DutyStatus) (chargeDuty : Bool) (loc : Option ℕ)
    (activity : Option String) (notes : String) (endT : ℚ) (t : ℚ)
    (st : BState) : BState × ℚ :=
  logSpanAux status chargeDuty loc activity notes endT
    ((dayOf endT + 1 - dayOf t).toNat + 1) t st

/-- Insert a synthetic event at list position `i + 1` and re-sort, as the
enforcement blocks do (e.g. lines 358-364). -/
def insertEventAt (st : BState) (i : ℕ) (ev : Event) : BState :=
  { st with
      events := sortEventsStable (st.events.insertIdx (i + 1) ev)
      inserted := st.inserted + 1 }

/-- The counter updates performed when inserting a 10-hour reset for the
11-hour or 14-hour limit (lines 365-368, 385-388 and copies): the three
daily counters are zeroed but `total_cycle_hours` is not. -/
def insertResetDaily (st : BState) (i : ℕ) (loc : Option ℕ) (cut : ℚ) : BState :=
  let st1 := insertEventAt st i
    { type := .reset_break, time := cut, duration := MANDATORY_RESET_BREAK,
      location := loc }
  { st1 with
      cycle_driving_hours := 0
      cycle_on_duty_hours := 0
      driving_since_last_break := 0
      last_reset_time := cut + MANDATORY_RESET_BREAK }

/-- The counter updates when inserting a 10-hour reset for the 70-hour
cycle limit (lines 422-426 and copies): all four counters are zeroed. -/
def insertResetCycle (st : BState) (i : ℕ) (loc : Option ℕ) (cut : ℚ) : BState :=
  let st1 := insertEventAt st i
    { type := .reset_break, time := cut, duration := MANDATORY_RESET_BREAK,
      location := loc }
  { st1 with
      total_cycle_hours := 0
      cycle_driving_hours := 0
      cycle_on_duty_hours := 0
      driving_since_last_break := 0
      last_reset_time := cut + MANDATORY_RESET_BREAK }

/-- The counter update when inserting a 30-minute break for the 8-hour
rule (lines 398-405 and copies): only `driving_since_last_break` resets. -/
def insertBreak30 (st : BState) (i : ℕ) (loc : Option ℕ) (cut : ℚ) : BState :=
  let st1 := insertEventAt st i
    { type := .mandatory_break, time := cut, duration := MANDATORY_BREAK_TIME,
      location := loc }
  { st1 with driving_since_last_break := 0 }

/-- Structural core of `gapLoop`; `fuel` is instantiated with one more
than the number of midnights between `t` and `endT`, which the loop never
exhausts. -/
def gapLoopAux (initial : Bool) (i : ℕ) (tripLoc evLoc : Option ℕ)
    (notes : String) (endT : ℚ) : ℕ → ℚ → BState → BState
  | 0, _, st => st
  | Nat.succ n, t, st =>
    if t < endT then
      let d := dayOf t
      let st0 : BState := { st with daily_logs := ensureDay st.daily_logs d }
      let nd : ℚ := 24 * ((d : ℚ) + 1)
      let endSeg := min nd endT
      let dur := endSeg - t
      if (initial || st0.current_status = DutyStatus.driving) ∧
          MAX_DRIVING_TIME < st0.cycle_driving_hours + dur then
        insertResetDaily st0 i evLoc (t + (MAX_DRIVING_TIME - st0.cycle_driving_hours))
      else if MAX_ON_DUTY_TIME < st0.cycle_on_duty_hours + dur then
        insertResetDaily st0 i evLoc (t + (MAX_ON_DUTY_TIME - st0.cycle_on_duty_hours))
      else if (initial || st0.current_status = DutyStatus.driving) ∧
          MAX_DRIVING_BEFORE_BREAK < st0.driving_since_last_break + dur then
        insertBreak30 st0 i evLoc
          (t + (MAX_DRIVING_BEFORE_BREAK - st0.driving_since_last_break))
      else if MAX_CYCLE_TIME < st0.total_cycle_hours + dur then
        insertResetCycle st0 i evLoc (t + (MAX_CYCLE_TIME - st0.total_cycle_hours))
      else
        let doBump : Bool := initial || st0.current_status = DutyStatus.driving
        let entry : LogEntry :=
          { start_time := t, end_time := endSeg,
            status := if initial then DutyStatus.driving else st0.current_status,
            location_id := if initial then tripLoc else evLoc,
            activity := none, notes := notes }
        let st1 : BState :=
          if doBump then
            { st0 with
                log_entries := st0.log_entries ++ [entry]
                daily_logs := dlUpdate st0.daily_logs d fun l =>
                  { statusBump l DutyStatus.driving dur with
                      log_data := update_log_grid
                        (statusBump l DutyStatus.driving dur).log_data t endSeg
                        DutyStatus.driving }
                cycle_driving_hours := st0.cycle_driving_hours + dur
                cycle_on_duty_hours := st0.cycle_on_duty_hours + dur
                driving_since_last_break := st0.driving_since_last_break + dur
                total_cycle_hours := st0.total_cycle_hours + dur
                current_odometer := st0.current_odometer + dur * AVERAGE_SPEED }
          else { st0 with log_entries := st0.log_entries ++ [entry] }
        if nd < endT then gapLoopAux initial i tripLoc evLoc notes endT n nd st1
        else st1
    else st

/-- The day-splitting driving-gap loop with the four enforcement checks
(initial block lines 342-446; guarded copies at 456-560, 594-698, 730-834,
903-1007).  In the initial pre-pickup block (`initial = true`) the 11-hour
and 8-hour checks are unguarded and the logged entry is hard-coded
`driving` with the trip's current location (lines 353, 393, 430-436);
in the event-gap copies those two checks require `current_status ==
'driving'`, the entry carries `current_status` and the event's location,
and the totals/counters advance only while driving (lines 550-558). -/
def gapLoop (initial : Bool) (i : ℕ) (tripLoc evLoc : Option ℕ) (notes : String)
    (endT : ℚ) (t : ℚ) (st : BState) : BState :=
  gapLoopAux initial i tripLoc evLoc notes endT
    ((dayOf endT + 1 - dayOf t).toNat + 1) t st

/-- `f"Driving to {event['type']} stop"` for the rest/fuel/mandatory-break
gap entries (line 686). -/
def gapNoteFor : EvType → String
  | .rest => "Driving to rest stop"
  | .fuel => "Driving to fuel stop"
  | .mandatory_break => "Driving to mandatory_break stop"
  | _ => "Driving to stop"

/-- `f"{event['type'].capitalize()} stop"` for the off-duty stop entries
(line 714). -/
def stopNoteFor : EvType → String
  | .rest => "Rest stop"
  | .fuel => "Fuel stop"
  | .mandatory_break => "Mandatory_break stop"
  | _ => "Stop"

/-- The overnight/reset counter reset (lines 859-864 and 891-895): all four
regulatory counters are zeroed and the reset instant recorded. -/
def applyFullResetCounters (st : BState) (resetEnd : ℚ) : BState :=
  { st with
      cycle_driving_hours := 0
      cycle_on_duty_hours := 0
      driving_since_last_break := 0
      total_cycle_hours := 0
      last_reset_time := resetEnd }

/-- The 30-minute-break counter reset after a rest or mandatory break
event (lines 720-721): only `driving_since_last_break` is cleared. -/
def applyShortBreakReset (st : BState) : BState :=
  { st with driving_since_last_break := 0 }

/-- Lines 590-724: the shared rest/fuel/mandatory-break event body. -/
def processStopEvent (tripLoc : Option ℕ) (i : ℕ) (ev : Event) (stA : BState) :
    BState :=
  let st1 :=
    if 0 < ev.time - stA.status_start_time then
      gapLoop false i tripLoc ev.location (gapNoteFor ev.type)
        ev.time stA.status_start_time stA
    else stA
  let r := logSpan DutyStatus.off_duty false ev.location none
    (stopNoteFor ev.type) (ev.time + ev.duration) ev.time st1
  let st2 :=
    if ev.type = EvType.rest ∨ ev.type = EvType.mandatory_break then
      applyShortBreakReset r.1
    else r.1
  { st2 with current_status := DutyStatus.driving,
             status_start_time := ev.time + ev.duration }

/-- Lines 339-448: the pre-pickup driving block executed when the first
event is the pickup, followed by the status hand-over at lines 447-448. -/
def initialPickupBlock (tripStart : ℚ) (tripLoc : Option ℕ) (i : ℕ)
    (ev : Event) (st : BState) : BState :=
  let st' :=
    if 0 < ev.time - tripStart then
      gapLoop true i tripLoc ev.location "Driving to pickup location"
        ev.time tripStart st
    else st
  { st' with current_status := DutyStatus.driving, status_start_time := ev.time }

/-- Lines 451-588: the pickup event body. -/
def processPickupEvent (tripLoc : Option ℕ) (i : ℕ) (ev : Event)
    (stA : BState) : BState :=
  let stB : BState :=
    if stA.current_status ≠ DutyStatus.on_duty_not_driving then
      let st1 :=
        if 0 < ev.time - stA.status_start_time then
          gapLoop false i tripLoc ev.location "En route to pickup"
            ev.time stA.status_start_time stA
        else stA
      { st1 with current_status := DutyStatus.on_duty_not_driving,
                 status_start_time := ev.time }
    else stA
  let r := logSpan DutyStatus.on_duty_not_driving true ev.location
    (some "Loading") "Loading at pickup location" (ev.time + ev.duration)
    ev.time stB
  { r.1 with current_status := DutyStatus.driving,
             status_start_time := ev.time + ev.duration }

/-- Lines 726-868: the overnight event body. -/
def processOvernightEvent (tripLoc : Option ℕ) (i : ℕ) (ev : Event)
    (stA : BState) : BState :=
  let st1 :=
    if 0 < ev.time - stA.status_start_time then
      gapLoop false i tripLoc ev.location "Driving to overnight stop"
        ev.time stA.status_start_time stA
    else stA
  let r := logSpan DutyStatus.sleeper_berth false ev.location none
    "Overnight stop" (ev.time + ev.duration) ev.time st1
  let st2 :=
    if MANDATORY_RESET_BREAK ≤ r.2 then
      applyFullResetCounters r.1 (ev.time + ev.duration)
    else r.1
  { st2 with current_status := DutyStatus.driving,
             status_start_time := ev.time + ev.duration }

/-- Lines 870-897: the synthetic reset-break event body (no gap logging
precedes it). -/
def processResetBreakEvent (i : ℕ) (ev : Event) (stA : BState) : BState :=
  let r := logSpan DutyStatus.off_duty false ev.location none
    "Mandatory HOS reset break" (ev.time + ev.duration) ev.time stA
  let st2 := applyFullResetCounters r.1 (ev.time + ev.duration)
  { st2 with current_status := DutyStatus.driving,
             status_start_time := ev.time + ev.duration }

/-- Lines 899-1033: the dropoff event body. -/
def processDropoffEvent (tripLoc : Option ℕ) (i : ℕ) (ev : Event)
    (stA : BState) : BState :=
  let st1 :=
    if 0 < ev.time - stA.status_start_time then
      gapLoop false i tripLoc ev.location "Driving to dropoff"
        ev.time stA.status_start_time stA
    else stA
  let r := logSpan DutyStatus.on_duty_not_driving true ev.location
    (some "Unloading") "Unloading at delivery location"
    (ev.time + ev.duration) ev.time st1
  { r.1 with current_status := DutyStatus.off_duty,
             status_start_time := ev.time + ev.duration }

/-- Processing of the event at index `i` of the live events list
(the body of the `for i, event in enumerate(events)` loop,
lines 335-1033). -/
def processEvent (tripStart : ℚ) (tripLoc : Option ℕ) (i : ℕ) (st : BState) :
    BState :=
  let ev := st.events.getD i default
  let stA : BState :=
    if i = 0 ∧ ev.type = EvType.pickup then
      initialPickupBlock tripStart tripLoc i ev st
    else st
  match ev.type with
  | .pickup => processPickupEvent tripLoc i ev stA
  | .rest => processStopEvent tripLoc i ev stA
  | .fuel => processStopEvent tripLoc i ev stA
  | .mandatory_break => processStopEvent tripLoc i ev stA
  | .overnight => processOvernightEvent tripLoc i ev stA
  | .reset_break => processResetBreakEvent i ev stA
  | .dropoff => processDropoffEvent tripLoc i ev stA

/-- The `for i, event in enumerate(events)` loop (line 335): Python's
iterator walks the live, possibly growing list by index. -/
def processEvents (tripStart : ℚ) (tripLoc : Option ℕ) :
    ℕ → ℕ → BState → BState
  | 0, _, st => st
  | Nat.succ f, i, st =>
    if i < st.events.length then
      processEvents tripStart tripLoc f (i + 1) (processEvent tripStart tripLoc i st)
    else st

/-- Insertion into a sorted list of dates (for `sorted(daily_logs.keys())`,
line 1037). -/
def insertDate (d : ℤ) : List ℤ → List ℤ
  | [] => [d]
  | b :: r => if d < b then d :: b :: r else b :: insertDate d r

/-- `sorted(...)` on the dict keys. -/
def sortDates (l : List ℤ) : List ℤ :=
  l.foldl (fun acc d => insertDate d acc) []

/-- Build the event dict for a waypoint (lines 258-263, 268-273, 281-286). -/
def waypointToEvent (w : Waypoint) : Event :=
  { type := w.waypoint_type, time := w.estimated_arrival,
    duration := w.planned_duration, location := w.location }

/-- The error exits of `generate_eld_logs_service`: all four are
`raise ValueError(...)` in the source, distinguished by their messages
(lines 229, 234, 256, 279); no partial output escapes. -/
inductive BuildError where
  | notOwner
  | crossTripWaypoint
  | missingPickup
  | missingDropoff
deriving DecidableEq, Repr, Inhabited

/-- The dict returned on success (lines 1045-1050). -/
structure EldOutput where
  total_on_duty_hours : ℚ
  daily_logs : List DailyLog
  log_entries : List LogEntry
deriving DecidableEq, Repr, Inhabited

/-- The Builder state before the main loop (lines 239-247, 324-332). -/
def initialBState (tripStart currentCycleHours : ℚ) (events : List Event) :
    BState :=
  { log_entries := []
    daily_logs := [(dayOf tripStart, initialize_daily_log (dayOf tripStart) none [])]
    current_status := DutyStatus.off_duty
    status_start_time := tripStart
    cycle_driving_hours := 0
    cycle_on_duty_hours := 0
    driving_since_last_break := 0
    total_cycle_hours := currentCycleHours
    last_reset_time := tripStart
    current_odometer := 0
    events := events
    inserted := 0 }

/-- The loop over events plus its initial state. -/
def runBuilder (tripStart : ℚ) (tripLoc : Option ℕ) (currentCycleHours : ℚ)
    (events : List Event) (fuel : ℕ) : BState :=
  processEvents tripStart tripLoc fuel 0 (initialBState tripStart currentCycleHours events)

/-- Finalisation (lines 1035-1050): close out each daily log's ending
odometer in date order and sum the on-duty totals. -/
def finalize (st : BState) : EldOutput :=
  let logsList := (sortDates (st.daily_logs.map fun p => p.1)).filterMap fun d =>
    (dlLookup st.daily_logs d).map fun l =>
      { l with ending_odometer :=
          calculate_odometer l.starting_odometer l.total_driving_hours }
  { total_on_duty_hours := (logsList.map fun l => l.total_on_duty_hours).sum
    daily_logs := logsList
    log_entries := st.log_entries }

/-- `generate_eld_logs_service` (lines 209-1050).  `fuel` bounds the number
of iterations of the event loop (which can grow its own list). -/
def generate_eld_logs_service (trip : Trip) (route : Route)
    (waypoints : List Waypoint) (currentCycleHours : ℚ) (user : UserT)
    (fuel : ℕ) : Except BuildError EldOutput :=
  if trip.user ≠ user.id then .error .notOwner
  else if (waypoints.filter fun w => w.route_id = route.id).length ≠
      waypoints.length then .error .crossTripWaypoint
  else
    match waypoints.find? fun w => w.waypoint_type = EvType.pickup with
    | none => .error .missingPickup
    | some pw =>
      let stopEvs := (sortWaypointsByArrival (waypoints.filter fun w =>
        w.waypoint_type = EvType.rest ∨ w.waypoint_type = EvType.fuel ∨
          w.waypoint_type = EvType.overnight)).map waypointToEvent
      match waypoints.find? fun w => w.waypoint_type = EvType.dropoff with
      | none => .error .missingDropoff
      | some dw =>
        let events0 := sortEventsStable
          ([waypointToEvent pw] ++ stopEvs ++ [waypointToEvent dw])
        let events1 := sortEventsStable (fuelPrepass events0 0 0)
        .ok (finalize (runBuilder trip.start_time trip.current_location
          currentCycleHours events1 fuel))

def cexTrip : Trip := { user := 1, start_time := 23, current_location := some 7 }

def cexRoute : Route := { id := 1 }

def cexPickupW : Waypoint :=
  { waypoint_type := .pickup, estimated_arrival := 25, planned_duration := 1,
    location := some 8, route_id := 1 }

def cexDropoffW : Waypoint :=
  { waypoint_type := .dropoff, estimated_arrival := 26, planned_duration := 1,
    location := some 9, route_id := 1 }

def cexUser : UserT := { id := 1 }

def cexOut : Except BuildError EldOutput :=
  generate_eld_logs_service cexTrip cexRoute [cexPickupW, cexDropoffW] 0 cexUser 9

/-- The sum of the durations of the log entries whose start lies on
calendar day `d`. -/
def entriesDaySum (es : List LogEntry) (d : ℤ) : ℚ :=
  ((es.filter fun e => dayOf e.start_time = d).map fun e => e.end_time - e.start_time).sum

/-- Odometer bookkeeping invariant of the in-progress `daily_logs` dict:
every stored day still has `ending_odometer = 0` (it is only closed out in
the finalisation pass, line 1039) and `starting_odometer = 0` (because
`initialize_daily_log` reads the previous day's still-zero ending
odometer, lines 1076-1078). -/
def OdoZero (logs : List (ℤ × DailyLog)) : Prop :=
  ∀ p ∈ logs, (p.2).ending_odometer = 0 ∧ (p.2).starting_odometer = 0

/-- A concrete Planner state as reached on `c5route` just before its
overnight stop fires (time 9.5 h: 1 h pickup charge plus 8 h driving and
a 30-minute break have consumed 9 h of the cycle budget). -/
def c5MidState : PState :=
  { current_time := 19/2
    remaining_drive_time := 11
    remaining_on_duty_time := 9/2
    remaining_cycle_time := 61
    time_since_break := 0
    distance_since_fuel := 1000/17
    rest_stops := []
    trace := [] }

/-- The sum of a daily log's four category totals. -/
def fourTotalSum (l : DailyLog) : ℚ :=
  l.total_driving_hours + l.total_on_duty_hours + l.total_off_duty_hours +
    l.total_sleeper_berth_hours

/-- `coversB u a b` checks that the entries `u` tile the interval `[a, b)`
contiguously: each entry starts where the previous one ended, the first
starts at `a` and the last ends at `b`. -/
def coversB : List LogEntry → ℚ → ℚ → Bool
  | [], a, b => decide (a = b)
  | e :: r, a, b => decide (e.start_time = a) && coversB r e.end_time b

/-- Sum of the durations of the `driving`-status entries of day `d`. -/
def drivingDaySum (es : List LogEntry) (d : ℤ) : ℚ :=
  ((es.filter fun e => dayOf e.start_time = d ∧ e.status = DutyStatus.driving).map
    fun e => e.end_time - e.start_time).sum

/-- The daily-totals bookkeeping invariant of the event loop: day keys are
unique, each day's four category totals decompose as that day's entry
durations plus (again) its driving durations — the driving double-count of
lines 437-438/551-552 — its driving total is exactly its driving-entry
durations, and every logged entry's day has a daily log. -/
def keyedTotalsOK (logs : List (ℤ × DailyLog)) (es : List LogEntry) : Prop :=
  (logs.map Prod.fst).Nodup ∧
  (∀ p ∈ logs,
     fourTotalSum p.2 = entriesDaySum es p.1 + drivingDaySum es p.1 ∧
     p.2.total_driving_hours = drivingDaySum es p.1) ∧
  (∀ e ∈ es, dayOf e.start_time ∈ logs.map Prod.fst)

/-- `keyedTotalsOK` at the state level. -/
def TotInv (st : BState) : Prop := keyedTotalsOK st.daily_logs st.log_entries


lemma restBreakBranch_cycShift (seg : Segment) (t p d : ℚ) (st : PState) :
    restBreakBranch seg t p (cycShift d st) =
      (cycShift d (restBreakBranch seg t p st).1, (restBreakBranch seg t p st).2) := by
  cases st
  simp [restBreakBranch, cycShift]
  ring

lemma fuelBranch_cycShift (seg : Segment) (t p d : ℚ) (st : PState) :
    fuelBranch seg t p (cycShift d st) =
      (cycShift d (fuelBranch seg t p st).1, (fuelBranch seg t p st).2) := by
  cases st
  simp [fuelBranch, cycShift]
  ring

lemma overnightBranch_cycShift (seg : Segment) (d : ℚ) (st : PState) :
    overnightBranch seg (cycShift d st) = cycShift d (overnightBranch seg st) := by
  cases st
  simp [overnightBranch, cycShift]

lemma driveRestBranch_cycShift (t p d : ℚ) (st : PState) :
    driveRestBranch t p (cycShift d st) = cycShift d (driveRestBranch t p st) := by
  cases st
  simp [driveRestBranch, cycShift]
  ring

lemma pickupCharge_cycShift (d : ℚ) (st : PState) :
    pickupCharge (cycShift d st) = cycShift d (pickupCharge st) := by
  cases st
  simp [pickupCharge, cycShift]
  ring

lemma segLoop_cycShift (seg : Segment) (fuel : ℕ) :
    ∀ (t p d : ℚ) (st : PState),
      segLoop fuel seg t p (cycShift d st) = cycShift d (segLoop fuel seg t p st) := by
  induction fuel with
  | zero => intro t p d st; rfl
  | succ f ih =>
    intro t p d st
    rw [segLoop, segLoop]
    by_cases h0 : 0 < t
    · simp only [if_pos h0, cycShift_time_since_break, cycShift_distance_since_fuel,
        cycShift_remaining_on_duty_time, cycShift_remaining_drive_time]
      by_cases h1 : MAX_DRIVING_BEFORE_BREAK < st.time_since_break + t
      · simp only [if_pos h1, restBreakBranch_cycShift]
        exact ih _ _ _ _
      · simp only [if_neg h1]
        by_cases h2 : MAX_DISTANCE_BEFORE_FUEL < st.distance_since_fuel + p
        · simp only [if_pos h2, fuelBranch_cycShift]
          exact ih _ _ _ _
        · simp only [if_neg h2]
          by_cases h3 : st.remaining_on_duty_time < t ∨ st.remaining_drive_time < t
          · simp only [if_pos h3, overnightBranch_cycShift]
            exact ih _ _ _ _
          · simp only [if_neg h3, driveRestBranch_cycShift]
            exact ih _ _ _ _
    · simp only [if_neg h0]

lemma planSegs_cycShift (fuel : ℕ) :
    ∀ (segs : List Segment) (i : ℕ) (d : ℚ) (st : PState),
      planSegs fuel segs i (cycShift d st) = cycShift d (planSegs fuel segs i st) := by
  intro segs
  induction segs with
  | nil => intro i d st; rfl
  | cons seg rest ih =>
    intro i d st
    rw [planSegs, planSegs]
    by_cases hi : i = 0
    · simp only [if_pos hi, pickupCharge_cycShift, segLoop_cycShift, ih]
    · simp only [if_neg hi, segLoop_cycShift, ih]

@[simp] lemma cycShift_trace (d : ℚ) (st : PState) :
    (cycShift d st).trace = st.trace := rfl

lemma planRun_rest_stops (route : RouteData) (c now : ℚ) (fuel : ℕ) :
    (planRun route c now fuel).rest_stops =
      (planSegs fuel route.segments 0 (initPState c now)).rest_stops := by
  unfold planRun
  split <;> rfl

lemma planRun_trace (route : RouteData) (c now : ℚ) (fuel : ℕ) :
    (planRun route c now fuel).trace =
      (planSegs fuel route.segments 0 (initPState c now)).trace := by
  unfold planRun
  split <;> rfl

lemma initPState_cycShift (c₁ c₂ now : ℚ) :
    initPState c₁ now = cycShift (c₂ - c₁) (initPState c₂ now) := by
  simp [initPState, cycShift]

/-- Claim C2 (amended): the Planner's stop list does not depend on
`current_cycle_hours` at all.  The cycle counter is decremented
(lines 109, 123, 148, 170, 197, 205) but never read by any branch
condition, so the emitted stops are identical for any two cycle values. -/
theorem planner_output_independent_of_cycle_hours
    (route : RouteData) (c₁ c₂ now : ℚ) (fuel : ℕ) :
    calculate_rest_stops route c₁ now fuel = calculate_rest_stops route c₂ now fuel := by
  unfold calculate_rest_stops
  rw [planRun_rest_stops, planRun_rest_stops, initPState_cycShift c₁ c₂ now,
    planSegs_cycShift]
  rfl

/-- Claim C2 (counterexample): with `cycle_hours_used = 68` and a route of
total duration 1 h (positive), the Planner returns the empty stop list:
no `overnight_reset` is emitted before (or after) driving, because the
overnight condition (line 176) never consults the cycle budget. -/
theorem planner_cycle68_no_overnight :
    (c2route.segments.map (fun s => s.duration)).sum = 1 ∧
      calculate_rest_stops c2route 68 0 9 = [] := by
  constructor
  · decide
  · decide

/-- Claim C3 (counterexample): on an empty segment list the Planner
returns normally with the empty stop list; it raises no error
(`calculate_rest_stops`, lines 92-208, contains no validation and no
`raise`). -/
theorem planner_empty_segments_returns_nil :
    calculate_rest_stops { segments := [], total_distance := 0 } 0 0 9 = [] := by
  decide

/-- Claim C3 (amended): the Planner performs no input validation: for an
empty segment list it returns the empty stop list whatever the declared
totals and cycle hours are, rather than failing with `InvalidRoute` (no
such error exists in the code). -/
theorem planner_never_fails_on_empty_route
    (td c now : ℚ) (fuel : ℕ) :
    calculate_rest_stops { segments := [], total_distance := td } c now fuel = [] := by
  rfl



@[simp] lemma timeShift_time_since_break (d : ℚ) (st : PState) :
    (timeShift d st).time_since_break = st.time_since_break := rfl

@[simp] lemma timeShift_distance_since_fuel (d : ℚ) (st : PState) :
    (timeShift d st).distance_since_fuel = st.distance_since_fuel := rfl

@[simp] lemma timeShift_remaining_on_duty_time (d : ℚ) (st : PState) :
    (timeShift d st).remaining_on_duty_time = st.remaining_on_duty_time := rfl

@[simp] lemma timeShift_remaining_drive_time (d : ℚ) (st : PState) :
    (timeShift d st).remaining_drive_time = st.remaining_drive_time := rfl

lemma restBreakBranch_timeShift (seg : Segment) (t p d : ℚ) (st : PState) :
    restBreakBranch seg t p (timeShift d st) =
      (timeShift d (restBreakBranch seg t p st).1, (restBreakBranch seg t p st).2) := by
  cases st
  simp [restBreakBranch, timeShift, shiftStep, shiftStop]
  exact ⟨by ring, by ring⟩

lemma fuelBranch_timeShift (seg : Segment) (t p d : ℚ) (st : PState) :
    fuelBranch seg t p (timeShift d st) =
      (timeShift d (fuelBranch seg t p st).1, (fuelBranch seg t p st).2) := by
  cases st
  simp [fuelBranch, timeShift, shiftStep, shiftStop]
  exact ⟨by ring, by ring⟩

lemma overnightBranch_timeShift (seg : Segment) (d : ℚ) (st : PState) :
    overnightBranch seg (timeShift d st) = timeShift d (overnightBranch seg st) := by
  cases st
  simp [overnightBranch, timeShift, shiftStep, shiftStop]
  ring

lemma driveRestBranch_timeShift (t p d : ℚ) (st : PState) :
    driveRestBranch t p (timeShift d st) = timeShift d (driveRestBranch t p st) := by
  cases st
  simp [driveRestBranch, timeShift, shiftStep]
  ring

lemma pickupCharge_timeShift (d : ℚ) (st : PState) :
    pickupCharge (timeShift d st) = timeShift d (pickupCharge st) := by
  cases st
  simp [pickupCharge, timeShift, shiftStep]
  ring

lemma segLoop_timeShift (seg : Segment) (fuel : ℕ) :
    ∀ (t p d : ℚ) (st : PState),
      segLoop fuel seg t p (timeShift d st) = timeShift d (segLoop fuel seg t p st) := by
  induction fuel with
  | zero => intro t p d st; rfl
  | succ f ih =>
    intro t p d st
    rw [segLoop, segLoop]
    by_cases h0 : 0 < t
    · simp only [if_pos h0, timeShift_time_since_break, timeShift_distance_since_fuel,
        timeShift_remaining_on_duty_time, timeShift_remaining_drive_time]
      by_cases h1 : MAX_DRIVING_BEFORE_BREAK < st.time_since_break + t
      · simp only [if_pos h1, restBreakBranch_timeShift]
        exact ih _ _ _ _
      · simp only [if_neg h1]
        by_cases h2 : MAX_DISTANCE_BEFORE_FUEL < st.distance_since_fuel + p
        · simp only [if_pos h2, fuelBranch_timeShift]
          exact ih _ _ _ _
        · simp only [if_neg h2]
          by_cases h3 : st.remaining_on_duty_time < t ∨ st.remaining_drive_time < t
          · simp only [if_pos h3, overnightBranch_timeShift]
            exact ih _ _ _ _
          · simp only [if_neg h3, driveRestBranch_timeShift]
            exact ih _ _ _ _
    · simp only [if_neg h0]

lemma planSegs_timeShift (fuel : ℕ) :
    ∀ (segs : List Segment) (i : ℕ) (d : ℚ) (st : PState),
      planSegs fuel segs i (timeShift d st) = timeShift d (planSegs fuel segs i st) := by
  intro segs
  induction segs with
  | nil => intro i d st; rfl
  | cons seg rest ih =>
    intro i d st
    rw [planSegs, planSegs]
    by_cases hi : i = 0
    · simp only [if_pos hi, pickupCharge_timeShift, segLoop_timeShift, ih]
    · simp only [if_neg hi, segLoop_timeShift, ih]

lemma initPState_timeShift (c now d : ℚ) :
    initPState c (now + d) = timeShift d (initPState c now) := by
  simp [initPState, timeShift]

/-- Claim C6 (amended): the Builder is a pure function of its arguments
(it is embedded as one and reads no ambient state), but the Planner's
output is a function of its arguments only up to the wall clock: the
stop list computed at wall-clock instant `now₂` is exactly the stop list
computed at `now₁` with every `estimated_arrival` timestamp shifted by
`now₂ - now₁` (`datetime.now()`, line 106, seeds all arrival times). -/
theorem planner_output_shifts_with_clock
    (route : RouteData) (c now₁ now₂ : ℚ) (fuel : ℕ) :
    calculate_rest_stops route c now₂ fuel =
      (calculate_rest_stops route c now₁ fuel).map (shiftStop (now₂ - now₁)) := by
  have key : ∀ d now : ℚ, calculate_rest_stops route c (now + d) fuel =
      (calculate_rest_stops route c now fuel).map (shiftStop d) := by
    intro d now
    unfold calculate_rest_stops
    rw [planRun_rest_stops, planRun_rest_stops, initPState_timeShift, planSegs_timeShift]
    rfl
  have h := key (now₂ - now₁) now₁
  rwa [show now₁ + (now₂ - now₁) = now₂ by ring] at h

/-- Claim C6 (counterexample): the Planner is not a deterministic function
of (route segments, cycle hours): two invocations that differ only in the
wall-clock instant return different stop lists (the arrival timestamps
differ), on a route whose plan contains a rest break and an overnight
stop. -/
theorem planner_output_depends_on_clock :
    calculate_rest_stops c5route 0 0 30 ≠ calculate_rest_stops c5route 0 1 30 := by
  decide

lemma accAfter_append (a : ℚ) (xs ys : List PlanStep) :
    accAfter a (xs ++ ys) = accAfter (accAfter a xs) ys := by
  induction xs generalizing a with
  | nil => rfl
  | cons x r ih => cases x <;> simp [accAfter, ih]

lemma driveOK_append (a : ℚ) (xs ys : List PlanStep) :
    driveOK a (xs ++ ys) = (driveOK a xs && driveOK (accAfter a xs) ys) := by
  induction xs generalizing a with
  | nil => simp [driveOK, accAfter]
  | cons x r ih => cases x <;> simp [driveOK, accAfter, ih, Bool.and_assoc]

lemma nonnegDrives_append (xs ys : List PlanStep) :
    nonnegDrives (xs ++ ys) = (nonnegDrives xs && nonnegDrives ys) := by
  induction xs with
  | nil => simp [nonnegDrives]
  | cons x r ih => cases x <;> simp [nonnegDrives, ih, Bool.and_assoc]

lemma segLoop_trace_mono (seg : Segment) (fuel : ℕ) :
    ∀ (t p : ℚ) (st : PState), st.trace <+: (segLoop fuel seg t p st).trace := by
  induction fuel with
  | zero => intro t p st; exact List.prefix_rfl
  | succ f ih =>
    intro t p st
    rw [segLoop]
    by_cases h0 : 0 < t
    · simp only [if_pos h0]
      by_cases h1 : MAX_DRIVING_BEFORE_BREAK < st.time_since_break + t
      · simp only [if_pos h1]
        have step := ih (restBreakBranch seg t p st).2.1 (restBreakBranch seg t p st).2.2
          (restBreakBranch seg t p st).1
        exact List.IsPrefix.trans ⟨_, rfl⟩ step
      · simp only [if_neg h1]
        by_cases h2 : MAX_DISTANCE_BEFORE_FUEL < st.distance_since_fuel + p
        · simp only [if_pos h2]
          have step := ih (fuelBranch seg t p st).2.1 (fuelBranch seg t p st).2.2
            (fuelBranch seg t p st).1
          exact List.IsPrefix.trans ⟨_, rfl⟩ step
        · simp only [if_neg h2]
          by_cases h3 : st.remaining_on_duty_time < t ∨ st.remaining_drive_time < t
          · simp only [if_pos h3]
            have step := ih t p (overnightBranch seg st)
            exact List.IsPrefix.trans ⟨_, rfl⟩ step
          · simp only [if_neg h3]
            have step := ih 0 p (driveRestBranch t p st)
            exact List.IsPrefix.trans ⟨_, rfl⟩ step
    · simp only [if_neg h0]
      exact List.prefix_rfl

lemma segLoop_ok (seg : Segment) (fuel : ℕ) :
    ∀ (segTime possDist : ℚ) (st : PState),
      0 ≤ st.time_since_break →
      st.time_since_break ≤ MAX_DRIVING_BEFORE_BREAK →
      0 ≤ possDist →
      segTime ≤ seg.duration →
      nonnegDrives (segLoop fuel seg segTime possDist st).trace = true →
      ∃ u, (segLoop fuel seg segTime possDist st).trace = st.trace ++ u ∧
        accAfter st.time_since_break u =
          (segLoop fuel seg segTime possDist st).time_since_break ∧
        driveOK st.time_since_break u = true ∧
        0 ≤ (segLoop fuel seg segTime possDist st).time_since_break ∧
        (segLoop fuel seg segTime possDist st).time_since_break ≤
          MAX_DRIVING_BEFORE_BREAK := by
  induction fuel with
  | zero =>
    intro t p st hts0 hts8 hp hdur _
    exact ⟨[], by simp [segLoop], by simp [segLoop, accAfter],
      by simp [driveOK], by simpa [segLoop] using hts0, by simpa [segLoop] using hts8⟩
  | succ f ih =>
    intro t p st hts0 hts8 hp hdur hnn
    rw [segLoop] at hnn ⊢
    by_cases h0 : 0 < t
    · simp only [if_pos h0] at hnn ⊢
      by_cases h1 : MAX_DRIVING_BEFORE_BREAK < st.time_since_break + t
      · -- mandatory 30-minute break branch
        simp only [if_pos h1] at hnn ⊢
        have hdurpos : 0 < seg.duration := lt_of_lt_of_le h0 hdur
        have hdtbb0 : 0 ≤ MAX_DRIVING_BEFORE_BREAK - st.time_since_break := by
          linarith
        have hdtbb_lt : MAX_DRIVING_BEFORE_BREAK - st.time_since_break < t := by
          linarith
        have hddb_le :
            (MAX_DRIVING_BEFORE_BREAK - st.time_since_break) / seg.duration * p ≤ p := by
          calc (MAX_DRIVING_BEFORE_BREAK - st.time_since_break) / seg.duration * p
              ≤ 1 * p := by
                apply mul_le_mul_of_nonneg_right _ hp
                exact (div_le_one hdurpos).mpr (le_trans (le_of_lt hdtbb_lt) hdur)
            _ = p := one_mul p
        obtain ⟨u, hu, hacc, hOK, hb0, hb8⟩ :=
          ih (restBreakBranch seg t p st).2.1 (restBreakBranch seg t p st).2.2
            (restBreakBranch seg t p st).1
            (le_refl 0) (by show (0:ℚ) ≤ (8:ℚ); norm_num)
            (by show (0:ℚ) ≤ p - _; linarith [hddb_le])
            (by show t - _ ≤ seg.duration; linarith [hdtbb0, hdur])
            hnn
        refine ⟨PlanStep.drive (MAX_DRIVING_BEFORE_BREAK - st.time_since_break) ::
          PlanStep.stop
            { type := .rest
              latitude := seg.start_coord.2
              longitude := seg.start_coord.1
              estimated_arrival := st.current_time +
                (MAX_DRIVING_BEFORE_BREAK - st.time_since_break)
              duration := MANDATORY_BREAK_TIME } :: u, ?_, ?_, ?_, hb0, hb8⟩
        · rw [hu]
          exact List.append_assoc _ _ _
        · simpa [accAfter, tsReset] using hacc
        · have e1 : st.time_since_break +
              (MAX_DRIVING_BEFORE_BREAK - st.time_since_break) =
              MAX_DRIVING_BEFORE_BREAK := by ring
          simp only [driveOK, tsReset, e1, Bool.and_eq_true, decide_eq_true_eq]
          exact ⟨le_refl _, hOK⟩
      · simp only [if_neg h1] at hnn ⊢
        have hts_t : st.time_since_break + t ≤ MAX_DRIVING_BEFORE_BREAK := not_lt.mp h1
        by_cases h2 : MAX_DISTANCE_BEFORE_FUEL < st.distance_since_fuel + p
        · -- fuel stop branch
          simp only [if_pos h2] at hnn ⊢
          -- extract non-negativity of the fuel-leg driving time from hnn
          obtain ⟨w, hw⟩ := segLoop_trace_mono seg f (fuelBranch seg t p st).2.1
            (fuelBranch seg t p st).2.2 (fuelBranch seg t p st).1
          have hnn1 : nonnegDrives (fuelBranch seg t p st).1.trace = true := by
            rw [← hw, nonnegDrives_append, Bool.and_eq_true] at hnn
            exact hnn.1
          have htbf0 : 0 ≤ (MAX_DISTANCE_BEFORE_FUEL - st.distance_since_fuel) / p * t := by
            have : (fuelBranch seg t p st).1.trace =
                st.trace ++ [PlanStep.drive ((MAX_DISTANCE_BEFORE_FUEL -
                  st.distance_since_fuel) / p * t), PlanStep.stop _] := rfl
            rw [this, nonnegDrives_append, Bool.and_eq_true] at hnn1
            have := hnn1.2
            simpa [nonnegDrives, decide_eq_true_eq] using this
          have hdbf_lt : MAX_DISTANCE_BEFORE_FUEL - st.distance_since_fuel < p := by
            linarith
          have htbf8 : st.time_since_break +
              (MAX_DISTANCE_BEFORE_FUEL - st.distance_since_fuel) / p * t ≤
              MAX_DRIVING_BEFORE_BREAK := by
            by_cases hppos : 0 < p
            · have h1lt : (MAX_DISTANCE_BEFORE_FUEL - st.distance_since_fuel) / p < 1 :=
                (div_lt_one hppos).mpr hdbf_lt
              have : (MAX_DISTANCE_BEFORE_FUEL - st.distance_since_fuel) / p * t < 1 * t :=
                mul_lt_mul_of_pos_right h1lt h0
              rw [one_mul] at this
              linarith
            · have hpz : p = 0 := le_antisymm (not_lt.mp hppos) hp
              rw [hpz, div_zero, zero_mul]
              linarith
          obtain ⟨u, hu, hacc, hOK, hb0, hb8⟩ :=
            ih (fuelBranch seg t p st).2.1 (fuelBranch seg t p st).2.2
              (fuelBranch seg t p st).1
              (by show (0:ℚ) ≤ st.time_since_break + _; linarith [htbf0])
              (by show st.time_since_break + _ ≤ _; exact htbf8)
              (by show (0:ℚ) ≤ p - _; linarith [hdbf_lt])
              (by show t - _ ≤ seg.duration; linarith [htbf0, hdur])
              hnn
          refine ⟨PlanStep.drive ((MAX_DISTANCE_BEFORE_FUEL -
            st.distance_since_fuel) / p * t) :: PlanStep.stop
            { type := .fuel
              latitude := seg.start_coord.2
              longitude := seg.start_coord.1
              estimated_arrival := st.current_time +
                (MAX_DISTANCE_BEFORE_FUEL - st.distance_since_fuel) / p * t
              duration := FUEL_STOP_DURATION } :: u,
            ?_, ?_, ?_, hb0, hb8⟩
          · rw [hu]
            exact List.append_assoc _ _ _
          · simpa [accAfter, tsReset] using hacc
          · simp only [driveOK, tsReset, Bool.and_eq_true, decide_eq_true_eq]
            exact ⟨htbf8, hOK⟩
        · simp only [if_neg h2] at hnn ⊢
          by_cases h3 : st.remaining_on_duty_time < t ∨ st.remaining_drive_time < t
          · -- overnight rest branch
            simp only [if_pos h3] at hnn ⊢
            obtain ⟨u, hu, hacc, hOK, hb0, hb8⟩ :=
              ih t p (overnightBranch seg st)
                (le_refl 0) (by show (0:ℚ) ≤ (8:ℚ); norm_num) hp hdur hnn
            refine ⟨PlanStep.stop
              { type := .overnight
                latitude := seg.start_coord.2
                longitude := seg.start_coord.1
                estimated_arrival := st.current_time
                duration := MANDATORY_RESET_BREAK } :: u, ?_, ?_, ?_, hb0, hb8⟩
            · rw [hu]
              exact List.append_assoc _ _ _
            · simpa [accAfter, tsReset] using hacc
            · simpa [driveOK, tsReset] using hOK
          · -- drive the rest of the segment
            simp only [if_neg h3] at hnn ⊢
            obtain ⟨u, hu, hacc, hOK, hb0, hb8⟩ :=
              ih 0 p (driveRestBranch t p st)
                (by show (0:ℚ) ≤ st.time_since_break + t; linarith)
                (by show st.time_since_break + t ≤ _; exact hts_t)
                hp (by linarith [hdur]) hnn
            refine ⟨PlanStep.drive t :: u, ?_, ?_, ?_, hb0, hb8⟩
            · rw [hu]
              exact List.append_assoc _ _ _
            · simpa [accAfter] using hacc
            · simp only [driveOK, Bool.and_eq_true, decide_eq_true_eq]
              exact ⟨hts_t, hOK⟩
    · simp only [if_neg h0] at hnn ⊢
      exact ⟨[], by simp, by simp [accAfter], by simp [driveOK], hts0, hts8⟩

lemma planSegs_trace_mono (fuel : ℕ) :
    ∀ (segs : List Segment) (i : ℕ) (st : PState),
      st.trace <+: (planSegs fuel segs i st).trace := by
  intro segs
  induction segs with
  | nil => intro i st; exact List.prefix_rfl
  | cons seg rest ih =>
    intro i st
    rw [planSegs]
    by_cases hi : i = 0
    · simp only [if_pos hi]
      refine List.IsPrefix.trans ?_ (List.IsPrefix.trans
        (segLoop_trace_mono seg fuel seg.duration seg.distance (pickupCharge st))
        (ih (i + 1) (segLoop fuel seg seg.duration seg.distance (pickupCharge st))))
      exact ⟨_, rfl⟩
    · simp only [if_neg hi]
      exact List.IsPrefix.trans
        (segLoop_trace_mono seg fuel seg.duration seg.distance st)
        (ih (i + 1) (segLoop fuel seg seg.duration seg.distance st))

lemma planSegs_ok (fuel : ℕ) :
    ∀ (segs : List Segment) (i : ℕ) (st : PState),
      (∀ s ∈ segs, 0 ≤ s.distance) →
      0 ≤ st.time_since_break →
      st.time_since_break ≤ MAX_DRIVING_BEFORE_BREAK →
      nonnegDrives (planSegs fuel segs i st).trace = true →
      ∃ u, (planSegs fuel segs i st).trace = st.trace ++ u ∧
        driveOK st.time_since_break u = true := by
  intro segs
  induction segs with
  | nil =>
    intro i st _ _ _ _
    exact ⟨[], by simp [planSegs], by simp [driveOK]⟩
  | cons seg rest ih =>
    intro i st hdist hts0 hts8 hnn
    rw [planSegs] at hnn ⊢
    obtain ⟨st0, d0, hif, h_ts, h_tr, hacc0, hOK0⟩ :
        ∃ (st0 : PState) (d0 : List PlanStep),
          (if i = 0 then pickupCharge st else st) = st0 ∧
          st0.time_since_break = st.time_since_break ∧
          st0.trace = st.trace ++ d0 ∧
          (∀ a : ℚ, accAfter a d0 = a) ∧ (∀ a : ℚ, driveOK a d0 = true) := by
      by_cases hi : i = 0
      · exact ⟨pickupCharge st, [PlanStep.duty PICKUP_DROPOFF_TIME], by rw [if_pos hi],
          rfl, rfl, fun a => rfl, fun a => rfl⟩
      · exact ⟨st, [], by rw [if_neg hi], rfl, by simp, fun a => rfl, fun a => rfl⟩
    rw [hif] at hnn ⊢
    have hnn1 : nonnegDrives (segLoop fuel seg seg.duration seg.distance st0).trace
        = true := by
      obtain ⟨w, hw⟩ := planSegs_trace_mono fuel rest (i + 1)
        (segLoop fuel seg seg.duration seg.distance st0)
      rw [← hw, nonnegDrives_append, Bool.and_eq_true] at hnn
      exact hnn.1
    obtain ⟨u1, hu1, hacc1, hOK1, hb0, hb8⟩ :=
      segLoop_ok seg fuel seg.duration seg.distance st0
        (h_ts ▸ hts0) (h_ts ▸ hts8) (hdist seg (by simp)) (le_refl _) hnn1
    obtain ⟨u2, hu2, hOK2⟩ :=
      ih (i + 1) (segLoop fuel seg seg.duration seg.distance st0)
        (fun s hs => hdist s (by simp [hs])) hb0 hb8 hnn
    refine ⟨d0 ++ u1 ++ u2, ?_, ?_⟩
    · rw [hu2, hu1, h_tr]
      simp [List.append_assoc]
    · rw [driveOK_append, Bool.and_eq_true]
      constructor
      · rw [driveOK_append, Bool.and_eq_true]
        refine ⟨hOK0 _, ?_⟩
        rw [hacc0, ← h_ts]
        exact hOK1
      · rw [accAfter_append, hacc0, ← h_ts, hacc1]
        exact hOK2

/-- Claim C1 (amended): for valid inputs (non-empty segments, non-negative
distances and durations, `0 ≤ cycle_hours_used < 70`) whose computed
driving stretches are all non-negative, the accumulated driving between
any two consecutive `time_since_break`-resetting stops (rest breaks and
overnight stops) never exceeds 8 hours.  The 11-hour half of the original
claim is false (see the counterexample): the rest-break branch
(lines 132-152) never charges `remaining_drive_time`, so driving capped
only by rest breaks can exceed 11 h between overnight stops. -/
theorem planner_eight_hour_break_bound
    (route : RouteData) (c now : ℚ) (fuel : ℕ)
    (hv : validSegments route = true) (_hc0 : 0 ≤ c) (_hc70 : c < 70)
    (hnn : nonnegDrives (planRun route c now fuel).trace = true) :
    driveOK 0 (planRun route c now fuel).trace = true := by
  rw [planRun_trace] at hnn ⊢
  have hdist : ∀ s ∈ route.segments, 0 ≤ s.distance := by
    intro s hs
    have hv' := hv
    simp only [validSegments, Bool.and_eq_true, List.all_eq_true] at hv'
    have h2 := hv'.2 s hs
    simp only [Bool.and_eq_true, decide_eq_true_eq] at h2
    exact h2.1
  obtain ⟨u, hu, hOK⟩ :=
    planSegs_ok fuel route.segments 0 (initPState c now) hdist
      (le_refl 0) (by show (0:ℚ) ≤ (8:ℚ); norm_num) hnn
  rw [hu]
  have h0 : (initPState c now).trace = [] := rfl
  rw [h0, List.nil_append]
  exact hOK

/-- Witness for `planner_eight_hour_break_bound` at the concrete
two-segment route `c1route` with `cycle_hours_used = 0`. -/
theorem planner_eight_hour_break_bound_witness :
    (validSegments c1route = true ∧ 0 ≤ (0:ℚ) ∧ (0:ℚ) < 70 ∧
      nonnegDrives (planRun c1route 0 0 40).trace = true) ∧
    driveOK 0 (planRun c1route 0 0 40).trace = true :=
  ⟨⟨by decide, by decide, by decide, by decide⟩,
    planner_eight_hour_break_bound c1route 0 0 40 (by decide) (by decide)
      (by decide) (by decide)⟩

/-- Claim C1 (counterexample): on the valid route `c1route` (two 9-hour,
100-mile segments; `cycle_hours_used = 0`), the Planner's timeline has two
consecutive driving stretches of 8 h each separated by a single rest break
and no overnight stop: their combined duration 16 h exceeds 11 h with no
intervening `overnight_reset`, so the stated invariant is false. -/
theorem planner_eleven_hour_claim_fails :
    validSegments c1route = true ∧
      claimC1check (planRun c1route 0 0 40).trace = false := by
  constructor
  · decide
  · decide

lemma dayOf_mono {a b : ℚ} (h : a ≤ b) : dayOf a ≤ dayOf b := by
  unfold dayOf
  apply Int.floor_le_floor
  have h24 : (0:ℚ) < 24 := by norm_num
  exact (div_le_div_iff_of_pos_right h24).mpr h

lemma dayOf_next (t : ℚ) : dayOf (24 * ((dayOf t : ℚ) + 1)) = dayOf t + 1 := by
  unfold dayOf
  have e : 24 * ((dayOf t : ℚ) + 1) / 24 = ((dayOf t + 1 : ℤ) : ℚ) := by
    push_cast
    ring
  unfold dayOf at e
  rw [e, Int.floor_intCast]

/-- Claim C10 (confirmed): before producing any output the Builder
validates caller identity and waypoint ownership (lines 227-234): a trip
not owned by the supplied user fails with the owner `ValueError`
(`BuildError.notOwner`), and, with an owning user, any waypoint whose
route differs from the trip's route fails with the ownership `ValueError`
(`BuildError.crossTripWaypoint`).  In both cases the function exits by
`raise` before building anything, so no log entries or daily logs are
produced (the `Except.error` result carries no output). -/
theorem builder_ownership_validation
    (trip : Trip) (route : Route) (wps : List Waypoint) (c : ℚ)
    (user : UserT) (fuel : ℕ) :
    (trip.user ≠ user.id →
      generate_eld_logs_service trip route wps c user fuel =
        .error .notOwner) ∧
    (trip.user = user.id → (∃ w ∈ wps, w.route_id ≠ route.id) →
      generate_eld_logs_service trip route wps c user fuel =
        .error .crossTripWaypoint) := by
  constructor
  · intro h
    unfold generate_eld_logs_service
    rw [if_pos h]
  · intro hu hw
    unfold generate_eld_logs_service
    rw [if_neg (by simp [hu])]
    rw [if_pos]
    intro heq
    obtain ⟨w, hmem, hne⟩ := hw
    have hall := List.filter_length_eq_length.mp heq
    exact hne (by simpa using hall w hmem)

/-- Witness for `builder_ownership_validation`: a wrong user is rejected,
and a foreign waypoint is rejected for the right user. -/
theorem builder_ownership_validation_witness :
    generate_eld_logs_service cexTrip cexRoute [cexPickupW] 0
      { id := 2 } 9 = .error .notOwner ∧
    generate_eld_logs_service cexTrip { id := 5 } [cexPickupW] 0
      cexUser 9 = .error .crossTripWaypoint :=
  ⟨(builder_ownership_validation cexTrip cexRoute [cexPickupW] 0 { id := 2 } 9).1
      (by decide),
    (builder_ownership_validation cexTrip { id := 5 } [cexPickupW] 0 cexUser 9).2
      (by decide) ⟨cexPickupW, by decide, by decide⟩⟩

/-- Claim C8 (confirmed): for an owning user and waypoints on the trip's
route, a waypoint set lacking a pickup, or lacking a dropoff, makes the
Builder fail with the corresponding missing-waypoint `ValueError`
(lines 253-256, 276-279) — `BuildError.missingPickup` or
`BuildError.missingDropoff`, distinguished from the ownership errors —
and the `raise` happens before the timeline is built, so no partial
`log_entries` or `daily_logs` are returned. -/
theorem builder_missing_waypoint_error
    (trip : Trip) (route : Route) (wps : List Waypoint) (c : ℚ)
    (user : UserT) (fuel : ℕ)
    (hu : trip.user = user.id)
    (hw : ∀ w ∈ wps, w.route_id = route.id)
    (hmiss : (∀ w ∈ wps, w.waypoint_type ≠ EvType.pickup) ∨
      (∀ w ∈ wps, w.waypoint_type ≠ EvType.dropoff)) :
    generate_eld_logs_service trip route wps c user fuel =
        .error .missingPickup ∨
      generate_eld_logs_service trip route wps c user fuel =
        .error .missingDropoff := by
  unfold generate_eld_logs_service
  rw [if_neg (by simp [hu]), if_neg (by
    simp only [ne_eq, not_not]
    exact List.filter_length_eq_length.mpr (by simpa using hw))]
  rcases hmiss with hnp | hnd
  · left
    rw [List.find?_eq_none.mpr (by simpa using hnp)]
  · cases hfp : wps.find? fun w => w.waypoint_type = EvType.pickup with
    | none => left; rfl
    | some pw =>
      right
      rw [List.find?_eq_none.mpr (by simpa using hnd)]

/-- Witness for `builder_missing_waypoint_error`: a waypoint set with a
pickup but no dropoff. -/
theorem builder_missing_waypoint_error_witness :
    generate_eld_logs_service cexTrip cexRoute [cexPickupW] 0 cexUser 9 =
        .error .missingPickup ∨
      generate_eld_logs_service cexTrip cexRoute [cexPickupW] 0 cexUser 9 =
        .error .missingDropoff :=
  builder_missing_waypoint_error cexTrip cexRoute [cexPickupW] 0 cexUser 9
    (by decide) (by decide) (Or.inr (by decide))

lemma odoZero_ensureDay {logs : List (ℤ × DailyLog)} (d : ℤ)
    (h : OdoZero logs) : OdoZero (ensureDay logs d) := by
  unfold ensureDay
  cases hl : dlLookup logs d with
  | some _ => exact h
  | none =>
    intro p hp
    rcases List.mem_append.mp hp with hin | hnew
    · exact h p hin
    · have hp' : p = (d, initialize_daily_log d (some (d - 1)) logs) := by
        simpa using hnew
      subst hp'
      refine ⟨rfl, ?_⟩
      have hstart : (initialize_daily_log d (some (d - 1)) logs).starting_odometer =
          (match dlLookup logs (d - 1) with
            | some l => l.ending_odometer
            | none => 0) := rfl
      rw [hstart]
      cases hl2 : dlLookup logs (d - 1) with
      | none => rfl
      | some l =>
        have hmem : ∃ q ∈ logs, q.2 = l := by
          unfold dlLookup at hl2
          cases hf : logs.find? fun p => p.1 = d - 1 with
          | none => rw [hf] at hl2; simp at hl2
          | some q =>
            rw [hf] at hl2
            simp at hl2
            exact ⟨q, List.mem_of_find?_eq_some hf, hl2⟩
        obtain ⟨q, hq, hql⟩ := hmem
        simpa [hql] using (h q hq).1

lemma odoZero_dlUpdate {logs : List (ℤ × DailyLog)} (d : ℤ)
    (f : DailyLog → DailyLog)
    (hf : ∀ l, (f l).ending_odometer = l.ending_odometer ∧
      (f l).starting_odometer = l.starting_odometer)
    (h : OdoZero logs) : OdoZero (dlUpdate logs d f) := by
  intro p hp
  unfold dlUpdate at hp
  obtain ⟨q, hq, hpq⟩ := List.mem_map.mp hp
  by_cases hd : q.1 = d
  · rw [if_pos hd] at hpq
    subst hpq
    exact ⟨(hf q.2).1.trans (h q hq).1, (hf q.2).2.trans (h q hq).2⟩
  · rw [if_neg hd] at hpq
    subst hpq
    exact h q hq

lemma statusBump_odo (l : DailyLog) (status : DutyStatus) (dur : ℚ) :
    (statusBump l status dur).ending_odometer = l.ending_odometer ∧
      (statusBump l status dur).starting_odometer = l.starting_odometer := by
  cases status <;> exact ⟨rfl, rfl⟩

lemma odoZero_logSpanAux (status : DutyStatus) (chargeDuty : Bool)
    (loc : Option ℕ) (activity : Option String) (notes : String) (endT : ℚ) :
    ∀ (n : ℕ) (t : ℚ) (st : BState), OdoZero st.daily_logs →
      OdoZero (logSpanAux status chargeDuty loc activity notes endT n t st).1.daily_logs := by
  intro n
  induction n with
  | zero => intro t st h; exact h
  | succ n ih =>
    intro t st h
    rw [logSpanAux]
    by_cases ht : t < endT
    · simp only [if_pos ht]
      by_cases hnd : (24 : ℚ) * ((dayOf t : ℚ) + 1) < endT
      · simp only [if_pos hnd]
        apply ih
        dsimp only
        refine odoZero_dlUpdate _ _ (fun l => ⟨?_, ?_⟩) (odoZero_ensureDay _ h)
        · exact (statusBump_odo l status _).1
        · exact (statusBump_odo l status _).2
      · simp only [if_neg hnd]
        refine odoZero_dlUpdate _ _ (fun l => ⟨?_, ?_⟩) (odoZero_ensureDay _ h)
        · exact (statusBump_odo l status _).1
        · exact (statusBump_odo l status _).2
    · simp only [if_neg ht]
      exact h

lemma odoZero_gapLoopAux (initial : Bool) (i : ℕ) (tripLoc evLoc : Option ℕ)
    (notes : String) (endT : ℚ) :
    ∀ (n : ℕ) (t : ℚ) (st : BState), OdoZero st.daily_logs →
      OdoZero (gapLoopAux initial i tripLoc evLoc notes endT n t st).daily_logs := by
  intro n
  induction n with
  | zero => intro t st h; exact h
  | succ n ih =>
    intro t st h
    rw [gapLoopAux]
    by_cases ht : t < endT
    · simp only [if_pos ht]
      split
      · exact odoZero_ensureDay _ h
      · split
        · exact odoZero_ensureDay _ h
        · split
          · exact odoZero_ensureDay _ h
          · split
            · exact odoZero_ensureDay _ h
            · split
              · apply ih
                split
                · dsimp only
                  refine odoZero_dlUpdate _ _ (fun l => ⟨?_, ?_⟩)
                    (odoZero_ensureDay _ h)
                  · exact (statusBump_odo l DutyStatus.driving (min (24 * ((dayOf t : ℚ) + 1)) endT - t)).1
                  · exact (statusBump_odo l DutyStatus.driving (min (24 * ((dayOf t : ℚ) + 1)) endT - t)).2
                · exact odoZero_ensureDay _ h
              · split
                · dsimp only
                  refine odoZero_dlUpdate _ _ (fun l => ⟨?_, ?_⟩)
                    (odoZero_ensureDay _ h)
                  · exact (statusBump_odo l DutyStatus.driving (min (24 * ((dayOf t : ℚ) + 1)) endT - t)).1
                  · exact (statusBump_odo l DutyStatus.driving (min (24 * ((dayOf t : ℚ) + 1)) endT - t)).2
                · exact odoZero_ensureDay _ h
    · simp only [if_neg ht]
      exact h

lemma odoZero_logSpan_fst (status : DutyStatus) (chargeDuty : Bool)
    (loc : Option ℕ) (activity : Option String) (notes : String)
    (endT t : ℚ) (st : BState) (h : OdoZero st.daily_logs) :
    OdoZero (logSpan status chargeDuty loc activity notes endT t st).1.daily_logs :=
  odoZero_logSpanAux status chargeDuty loc activity notes endT _ t st h

lemma odoZero_gapLoop (initial : Bool) (i : ℕ) (tripLoc evLoc : Option ℕ)
    (notes : String) (endT t : ℚ) (st : BState) (h : OdoZero st.daily_logs) :
    OdoZero (gapLoop initial i tripLoc evLoc notes endT t st).daily_logs :=
  odoZero_gapLoopAux initial i tripLoc evLoc notes endT _ t st h

lemma odoZero_processStopEvent (tripLoc : Option ℕ) (i : ℕ) (ev : Event)
    (stA : BState) (h : OdoZero stA.daily_logs) :
    OdoZero (processStopEvent tripLoc i ev stA).daily_logs := by
  unfold processStopEvent
  have h1 : OdoZero (if 0 < ev.time - stA.status_start_time then
      gapLoop false i tripLoc ev.location (gapNoteFor ev.type)
        ev.time stA.status_start_time stA
    else stA).daily_logs := by
    split
    · exact odoZero_gapLoop _ _ _ _ _ _ _ _ h
    · exact h
  have h2 := odoZero_logSpan_fst DutyStatus.off_duty false ev.location none
    (stopNoteFor ev.type) (ev.time + ev.duration) ev.time _ h1
  by_cases hc : ev.type = EvType.rest ∨ ev.type = EvType.mandatory_break
  · simp only [if_pos hc]
    exact h2
  · simp only [if_neg hc]
    exact h2

lemma odoZero_initialPickupBlock (tripStart : ℚ) (tripLoc : Option ℕ) (i : ℕ)
    (ev : Event) (st : BState) (h : OdoZero st.daily_logs) :
    OdoZero (initialPickupBlock tripStart tripLoc i ev st).daily_logs := by
  unfold initialPickupBlock
  split
  · exact odoZero_gapLoop _ _ _ _ _ _ _ _ h
  · exact h

lemma odoZero_processPickupEvent (tripLoc : Option ℕ) (i : ℕ) (ev : Event)
    (stA : BState) (h : OdoZero stA.daily_logs) :
    OdoZero (processPickupEvent tripLoc i ev stA).daily_logs := by
  unfold processPickupEvent
  have hB : OdoZero (if stA.current_status ≠ DutyStatus.on_duty_not_driving then
      (let st1 :=
        if 0 < ev.time - stA.status_start_time then
          gapLoop false i tripLoc ev.location "En route to pickup"
            ev.time stA.status_start_time stA
        else stA
       { st1 with current_status := DutyStatus.on_duty_not_driving,
                  status_start_time := ev.time })
    else stA).daily_logs := by
    split
    · show OdoZero (if 0 < ev.time - stA.status_start_time then
          gapLoop false i tripLoc ev.location "En route to pickup"
            ev.time stA.status_start_time stA
        else stA).daily_logs
      split
      · exact odoZero_gapLoop _ _ _ _ _ _ _ _ h
      · exact h
    · exact h
  exact odoZero_logSpan_fst _ _ _ _ _ _ _ _ hB

lemma odoZero_processOvernightEvent (tripLoc : Option ℕ) (i : ℕ) (ev : Event)
    (stA : BState) (h : OdoZero stA.daily_logs) :
    OdoZero (processOvernightEvent tripLoc i ev stA).daily_logs := by
  unfold processOvernightEvent
  by_cases hd : 0 < ev.time - stA.status_start_time
  · simp only [if_pos hd]
    have h2 := odoZero_logSpan_fst DutyStatus.sleeper_berth false ev.location none
      "Overnight stop" (ev.time + ev.duration) ev.time _
      (odoZero_gapLoop false i tripLoc ev.location "Driving to overnight stop"
        ev.time stA.status_start_time stA h)
    split
    · exact h2
    · exact h2
  · simp only [if_neg hd]
    have h2 := odoZero_logSpan_fst DutyStatus.sleeper_berth false ev.location none
      "Overnight stop" (ev.time + ev.duration) ev.time _ h
    split
    · exact h2
    · exact h2

lemma odoZero_processResetBreakEvent (i : ℕ) (ev : Event)
    (stA : BState) (h : OdoZero stA.daily_logs) :
    OdoZero (processResetBreakEvent i ev stA).daily_logs := by
  unfold processResetBreakEvent
  exact odoZero_logSpan_fst _ _ _ _ _ _ _ _ h

lemma odoZero_processDropoffEvent (tripLoc : Option ℕ) (i : ℕ) (ev : Event)
    (stA : BState) (h : OdoZero stA.daily_logs) :
    OdoZero (processDropoffEvent tripLoc i ev stA).daily_logs := by
  unfold processDropoffEvent
  have h1 : OdoZero (if 0 < ev.time - stA.status_start_time then
      gapLoop false i tripLoc ev.location "Driving to dropoff"
        ev.time stA.status_start_time stA
    else stA).daily_logs := by
    split
    · exact odoZero_gapLoop _ _ _ _ _ _ _ _ h
    · exact h
  exact odoZero_logSpan_fst _ _ _ _ _ _ _ _ h1

lemma odoZero_processEvent (tripStart : ℚ) (tripLoc : Option ℕ) (i : ℕ)
    (st : BState) (h : OdoZero st.daily_logs) :
    OdoZero (processEvent tripStart tripLoc i st).daily_logs := by
  unfold processEvent
  have hA : OdoZero (if i = 0 ∧ (st.events.getD i default).type = EvType.pickup then
      initialPickupBlock tripStart tripLoc i (st.events.getD i default) st
    else st).daily_logs := by
    split
    · exact odoZero_initialPickupBlock _ _ _ _ _ h
    · exact h
  dsimp only
  split
  · exact odoZero_processPickupEvent _ _ _ _ hA
  · exact odoZero_processStopEvent _ _ _ _ hA
  · exact odoZero_processStopEvent _ _ _ _ hA
  · exact odoZero_processStopEvent _ _ _ _ hA
  · exact odoZero_processOvernightEvent _ _ _ _ hA
  · exact odoZero_processResetBreakEvent _ _ _ hA
  · exact odoZero_processDropoffEvent _ _ _ _ hA

lemma odoZero_processEvents (tripStart : ℚ) (tripLoc : Option ℕ) :
    ∀ (fuel i : ℕ) (st : BState), OdoZero st.daily_logs →
      OdoZero (processEvents tripStart tripLoc fuel i st).daily_logs := by
  intro fuel
  induction fuel with
  | zero => intro i st h; exact h
  | succ f ih =>
    intro i st h
    rw [processEvents]
    split
    · exact ih _ _ (odoZero_processEvent _ _ _ _ h)
    · exact h

lemma odoZero_runBuilder (tripStart : ℚ) (tripLoc : Option ℕ) (c : ℚ)
    (events : List Event) (fuel : ℕ) :
    OdoZero (runBuilder tripStart tripLoc c events fuel).daily_logs := by
  apply odoZero_processEvents
  intro p hp
  have hp' : p = (dayOf tripStart, initialize_daily_log (dayOf tripStart) none []) := by
    simpa [initialBState] using hp
  subst hp'
  exact ⟨rfl, rfl⟩

lemma dlLookup_mem {logs : List (ℤ × DailyLog)} {d : ℤ} {l : DailyLog}
    (h : dlLookup logs d = some l) : ∃ q ∈ logs, q.2 = l := by
  unfold dlLookup at h
  cases hf : logs.find? fun p => p.1 = d with
  | none => rw [hf] at h; simp at h
  | some q =>
    rw [hf] at h
    simp at h
    exact ⟨q, List.mem_of_find?_eq_some hf, h⟩

lemma finalize_daily_logs_odo {st : BState} {l : DailyLog}
    (hz : OdoZero st.daily_logs) (hl : l ∈ (finalize st).daily_logs) :
    l.starting_odometer = 0 ∧
      l.ending_odometer = pyInt (l.total_driving_hours * AVERAGE_SPEED) := by
  unfold finalize at hl
  dsimp only at hl
  obtain ⟨d, _, hmap⟩ := List.mem_filterMap.mp hl
  cases hlk : dlLookup st.daily_logs d with
  | none => rw [hlk] at hmap; simp at hmap
  | some l0 =>
    rw [hlk] at hmap
    simp at hmap
    obtain ⟨q, hq, hql⟩ := dlLookup_mem hlk
    have hz0 := hz q hq
    rw [hql] at hz0
    subst hmap
    refine ⟨hz0.2, ?_⟩
    show calculate_odometer l0.starting_odometer l0.total_driving_hours =
      pyInt (l0.total_driving_hours * AVERAGE_SPEED)
    rw [hz0.2]
    unfold calculate_odometer
    norm_num

/-- Claim C9 (amended): in every daily log the Builder returns, the
starting odometer is 0 — `initialize_daily_log` (lines 1074-1078) reads
the previous day's `ending_odometer` before the finalisation pass
(line 1039) has computed it, so the carried-forward value is always the
initial 0 — and the ending odometer is the Python `int()` truncation
(not rounding) of that day's driving hours times the 55 mph average
speed. -/
theorem builder_odometer_zero_start_and_truncation
    (trip : Trip) (route : Route) (wps : List Waypoint) (c : ℚ)
    (user : UserT) (fuel : ℕ) (out : EldOutput)
    (h : generate_eld_logs_service trip route wps c user fuel = .ok out) :
    ∀ l ∈ out.daily_logs, l.starting_odometer = 0 ∧
      l.ending_odometer = pyInt (l.total_driving_hours * AVERAGE_SPEED) := by
  intro l hl
  unfold generate_eld_logs_service at h
  split at h
  · exact absurd h (by simp)
  · split at h
    · exact absurd h (by simp)
    · split at h
      · exact absurd h (by simp)
      · split at h
        · exact absurd h (by simp)
        · simp only [Except.ok.injEq] at h
          subst h
          exact finalize_daily_logs_odo (odoZero_runBuilder _ _ _ _ _) hl

/-- Witness for `builder_odometer_zero_start_and_truncation` on the
concrete two-day trip `cexTrip`. -/
theorem builder_odometer_witness :
    (∃ out, generate_eld_logs_service cexTrip cexRoute
        [cexPickupW, cexDropoffW] 0 cexUser 9 = .ok out ∧
      ∀ l ∈ out.daily_logs, l.starting_odometer = 0 ∧
        l.ending_odometer = pyInt (l.total_driving_hours * AVERAGE_SPEED)) := by
  cases hout : generate_eld_logs_service cexTrip cexRoute
      [cexPickupW, cexDropoffW] 0 cexUser 9 with
  | error e =>
    have hne : (generate_eld_logs_service cexTrip cexRoute
        [cexPickupW, cexDropoffW] 0 cexUser 9).isOk = true := by decide
    rw [hout] at hne
    simp [Except.isOk, Except.toBool] at hne
  | ok out =>
    exact ⟨out, rfl, builder_odometer_zero_start_and_truncation cexTrip cexRoute
      [cexPickupW, cexDropoffW] 0 cexUser 9 out hout⟩

/-- Claim C9 (counterexample): on the concrete trip `cexTrip` (start 23:00
day 0; pickup 01:00 day 1; one driving hour on each day), the second
day's starting odometer is 0 while the first day's ending odometer is 55:
the stated chaining `starting(day n+1) = ending(day n)` is false. -/
theorem builder_odometer_chain_broken :
    (generate_eld_logs_service cexTrip cexRoute [cexPickupW, cexDropoffW] 0
        cexUser 9).toOption.map
        (fun o => (o.daily_logs.getD 1 default).starting_odometer) = some 0 ∧
    (generate_eld_logs_service cexTrip cexRoute [cexPickupW, cexDropoffW] 0
        cexUser 9).toOption.map
        (fun o => (o.daily_logs.getD 0 default).ending_odometer) = some 55 := by
  constructor
  · decide
  · decide

/-- Claim C5 (counterexample): the Planner's full reset does not reset all
four counters.  On `c5route` (one 13.6-hour segment) the plan contains a
rest break and an overnight stop, yet the final remaining cycle budget is
272/5 = 54.4 h — the overnight at 9.5 h left the cycle budget at 61
unchanged (all-four-reset semantics would end at 317/5 = 63.4 h).  At the
concrete pre-overnight state `c5MidState`, the overnight update restores
the 11-hour and 14-hour budgets and clears `time_since_break`, but leaves
`remaining_cycle_time` at 61 instead of restoring the full 70-hour
budget. -/
theorem planner_overnight_cycle_not_reset :
    ((planRun c5route 0 0 30).rest_stops.map (fun s => s.type) =
        [StopType.rest, StopType.overnight] ∧
      (planRun c5route 0 0 30).remaining_cycle_time = 272/5) ∧
    (overnightBranch (c5route.segments.getD 0 default) c5MidState).remaining_cycle_time =
        c5MidState.remaining_cycle_time ∧
      c5MidState.remaining_cycle_time ≠ MAX_CYCLE_TIME := by
  refine ⟨⟨?_, ?_⟩, ?_, ?_⟩
  · decide
  · decide
  · rfl
  · decide

/-- Claim C5 (amended): a full (overnight / 10-hour) reset restores the
11-hour driving and 14-hour on-duty budgets and clears the since-break
counter in the Planner but leaves the 70-hour cycle budget untouched
(lines 186-189), while the Builder's reset (applied by the `reset_break`
and qualifying `overnight` events, lines 859-864 and 891-895) zeroes all
four counters; a short 30-minute break clears only the since-break
counter in both (Planner line 146 — while charging the driven time and
break to the on-duty/cycle budgets, lines 147-148, and leaving the
11-hour budget untouched — and Builder lines 720-721, which leave the
other three counters unchanged). -/
theorem reset_counter_frame_conditions :
    (∀ (seg : Segment) (st : PState),
      (overnightBranch seg st).remaining_drive_time = MAX_DRIVING_TIME ∧
      (overnightBranch seg st).remaining_on_duty_time = MAX_ON_DUTY_TIME ∧
      (overnightBranch seg st).time_since_break = 0 ∧
      (overnightBranch seg st).remaining_cycle_time = st.remaining_cycle_time) ∧
    (∀ (seg : Segment) (t p : ℚ) (st : PState),
      (restBreakBranch seg t p st).1.time_since_break = 0 ∧
      (restBreakBranch seg t p st).1.remaining_drive_time =
        st.remaining_drive_time ∧
      (restBreakBranch seg t p st).1.remaining_on_duty_time =
        st.remaining_on_duty_time -
          ((MAX_DRIVING_BEFORE_BREAK - st.time_since_break) + MANDATORY_BREAK_TIME) ∧
      (restBreakBranch seg t p st).1.remaining_cycle_time =
        st.remaining_cycle_time - (MAX_DRIVING_BEFORE_BREAK - st.time_since_break)) ∧
    (∀ (st : BState) (r : ℚ),
      (applyFullResetCounters st r).cycle_driving_hours = 0 ∧
      (applyFullResetCounters st r).cycle_on_duty_hours = 0 ∧
      (applyFullResetCounters st r).driving_since_last_break = 0 ∧
      (applyFullResetCounters st r).total_cycle_hours = 0) ∧
    (∀ st : BState,
      (applyShortBreakReset st).driving_since_last_break = 0 ∧
      (applyShortBreakReset st).cycle_driving_hours = st.cycle_driving_hours ∧
      (applyShortBreakReset st).cycle_on_duty_hours = st.cycle_on_duty_hours ∧
      (applyShortBreakReset st).total_cycle_hours = st.total_cycle_hours) :=
  ⟨fun seg st => ⟨rfl, rfl, rfl, rfl⟩,
    fun seg t p st => ⟨rfl, rfl, rfl, rfl⟩,
    fun st r => ⟨rfl, rfl, rfl, rfl⟩,
    fun st => ⟨rfl, rfl, rfl, rfl⟩⟩

/-- Claim C4 (counterexample): on the concrete trip `cexTrip`, day 1 holds
three log entries of one hour each (driving, loading, unloading; 3 h
total), but its four category totals sum to 4 h: the driving hour is also
counted in `total_on_duty_hours` (lines 551-552), so the stated equality
fails. -/
theorem daily_totals_double_count_driving :
    (generate_eld_logs_service cexTrip cexRoute [cexPickupW, cexDropoffW] 0
        cexUser 9).toOption.map
        (fun o => fourTotalSum (o.daily_logs.getD 1 default)) = some 4 ∧
    (generate_eld_logs_service cexTrip cexRoute [cexPickupW, cexDropoffW] 0
        cexUser 9).toOption.map
        (fun o => entriesDaySum o.log_entries 1) = some 3 := by
  constructor
  · decide
  · decide

/-- Claim C7 (counterexample): on the concrete trip `cexTrip` (trip start
23:00 day 0, pickup 01:00 day 1), the Builder's first log entry covers
[23:00, 24:00) — inside the gap between trip start and pickup — with
status `driving` (lines 430-436), not `off_duty` or `sleeper_berth`. -/
theorem pre_pickup_gap_logged_as_driving :
    (generate_eld_logs_service cexTrip cexRoute [cexPickupW, cexDropoffW] 0
        cexUser 9).toOption.map
        (fun o => ((o.log_entries.getD 0 default).status,
          (o.log_entries.getD 0 default).start_time,
          (o.log_entries.getD 0 default).end_time)) =
      some (DutyStatus.driving, 23, 24) := by
  decide

lemma logSpanAux_entries_mono (status : DutyStatus) (chargeDuty : Bool)
    (loc : Option ℕ) (activity : Option String) (notes : String) (endT : ℚ) :
    ∀ (n : ℕ) (t : ℚ) (st : BState),
      st.log_entries <+:
        (logSpanAux status chargeDuty loc activity notes endT n t st).1.log_entries := by
  intro n
  induction n with
  | zero => intro t st; exact List.prefix_rfl
  | succ n ih =>
    intro t st
    rw [logSpanAux]
    by_cases ht : t < endT
    · simp only [if_pos ht]
      by_cases hnd : (24 : ℚ) * ((dayOf t : ℚ) + 1) < endT
      · simp only [if_pos hnd]
        refine List.IsPrefix.trans ?_ (ih _ _)
        exact ⟨_, rfl⟩
      · simp only [if_neg hnd]
        exact ⟨_, rfl⟩
    · simp only [if_neg ht]
      exact List.prefix_rfl

lemma gapLoopAux_entries_mono (initial : Bool) (i : ℕ)
    (tripLoc evLoc : Option ℕ) (notes : String) (endT : ℚ) :
    ∀ (n : ℕ) (t : ℚ) (st : BState),
      st.log_entries <+:
        (gapLoopAux initial i tripLoc evLoc notes endT n t st).log_entries := by
  intro n
  induction n with
  | zero => intro t st; exact List.prefix_rfl
  | succ n ih =>
    intro t st
    rw [gapLoopAux]
    by_cases ht : t < endT
    · simp only [if_pos ht]
      split
      · exact List.prefix_rfl
      · split
        · exact List.prefix_rfl
        · split
          · exact List.prefix_rfl
          · split
            · exact List.prefix_rfl
            · split
              · refine List.IsPrefix.trans ?_ (ih _ _)
                split
                · exact ⟨_, rfl⟩
                · exact ⟨_, rfl⟩
              · split
                · exact ⟨_, rfl⟩
                · exact ⟨_, rfl⟩
    · simp only [if_neg ht]
      exact List.prefix_rfl

lemma gapLoop_entries_mono (initial : Bool) (i : ℕ)
    (tripLoc evLoc : Option ℕ) (notes : String) (endT t : ℚ) (st : BState) :
    st.log_entries <+:
      (gapLoop initial i tripLoc evLoc notes endT t st).log_entries :=
  gapLoopAux_entries_mono initial i tripLoc evLoc notes endT _ t st

lemma logSpan_entries_mono (status : DutyStatus) (chargeDuty : Bool)
    (loc : Option ℕ) (activity : Option String) (notes : String)
    (endT t : ℚ) (st : BState) :
    st.log_entries <+:
      (logSpan status chargeDuty loc activity notes endT t st).1.log_entries :=
  logSpanAux_entries_mono status chargeDuty loc activity notes endT _ t st

lemma processStopEvent_entries_mono (tripLoc : Option ℕ) (i : ℕ) (ev : Event)
    (stA : BState) :
    stA.log_entries <+: (processStopEvent tripLoc i ev stA).log_entries := by
  unfold processStopEvent
  dsimp only
  split <;> split
  all_goals first
    | exact logSpan_entries_mono DutyStatus.off_duty false ev.location none
        (stopNoteFor ev.type) (ev.time + ev.duration) ev.time stA
    | exact List.IsPrefix.trans
        (gapLoop_entries_mono false i tripLoc ev.location (gapNoteFor ev.type)
          ev.time stA.status_start_time stA)
        (logSpan_entries_mono DutyStatus.off_duty false ev.location none
          (stopNoteFor ev.type) (ev.time + ev.duration) ev.time
          (gapLoop false i tripLoc ev.location (gapNoteFor ev.type)
            ev.time stA.status_start_time stA))

lemma initialPickupBlock_entries_mono (tripStart : ℚ) (tripLoc : Option ℕ)
    (i : ℕ) (ev : Event) (st : BState) :
    st.log_entries <+: (initialPickupBlock tripStart tripLoc i ev st).log_entries := by
  unfold initialPickupBlock
  split
  · exact gapLoop_entries_mono _ _ _ _ _ _ _ _
  · exact List.prefix_rfl

lemma processPickupEvent_entries_mono (tripLoc : Option ℕ) (i : ℕ) (ev : Event)
    (stA : BState) :
    stA.log_entries <+: (processPickupEvent tripLoc i ev stA).log_entries := by
  unfold processPickupEvent
  have hB : stA.log_entries <+:
      (if stA.current_status ≠ DutyStatus.on_duty_not_driving then
        (let st1 :=
          if 0 < ev.time - stA.status_start_time then
            gapLoop false i tripLoc ev.location "En route to pickup"
              ev.time stA.status_start_time stA
          else stA
         { st1 with current_status := DutyStatus.on_duty_not_driving,
                    status_start_time := ev.time })
      else stA).log_entries := by
    split
    · show stA.log_entries <+: (if 0 < ev.time - stA.status_start_time then
          gapLoop false i tripLoc ev.location "En route to pickup"
            ev.time stA.status_start_time stA
        else stA).log_entries
      split
      · exact gapLoop_entries_mono _ _ _ _ _ _ _ _
      · exact List.prefix_rfl
    · exact List.prefix_rfl
  refine List.IsPrefix.trans hB ?_
  exact logSpan_entries_mono _ _ _ _ _ _ _ _

lemma processOvernightEvent_entries_mono (tripLoc : Option ℕ) (i : ℕ)
    (ev : Event) (stA : BState) :
    stA.log_entries <+: (processOvernightEvent tripLoc i ev stA).log_entries := by
  unfold processOvernightEvent
  dsimp only
  split <;> split
  all_goals first
    | exact logSpan_entries_mono DutyStatus.sleeper_berth false ev.location none
        "Overnight stop" (ev.time + ev.duration) ev.time stA
    | exact List.IsPrefix.trans
        (gapLoop_entries_mono false i tripLoc ev.location
          "Driving to overnight stop" ev.time stA.status_start_time stA)
        (logSpan_entries_mono DutyStatus.sleeper_berth false ev.location none
          "Overnight stop" (ev.time + ev.duration) ev.time
          (gapLoop false i tripLoc ev.location "Driving to overnight stop"
            ev.time stA.status_start_time stA))

lemma processResetBreakEvent_entries_mono (i : ℕ) (ev : Event) (stA : BState) :
    stA.log_entries <+: (processResetBreakEvent i ev stA).log_entries := by
  unfold processResetBreakEvent
  exact logSpan_entries_mono _ _ _ _ _ _ _ _

lemma processDropoffEvent_entries_mono (tripLoc : Option ℕ) (i : ℕ)
    (ev : Event) (stA : BState) :
    stA.log_entries <+: (processDropoffEvent tripLoc i ev stA).log_entries := by
  unfold processDropoffEvent
  have h1 : stA.log_entries <+: (if 0 < ev.time - stA.status_start_time then
      gapLoop false i tripLoc ev.location "Driving to dropoff"
        ev.time stA.status_start_time stA
    else stA).log_entries := by
    split
    · exact gapLoop_entries_mono _ _ _ _ _ _ _ _
    · exact List.prefix_rfl
  refine List.IsPrefix.trans h1 ?_
  exact logSpan_entries_mono _ _ _ _ _ _ _ _

lemma processEvent_entries_mono (tripStart : ℚ) (tripLoc : Option ℕ) (i : ℕ)
    (st : BState) :
    st.log_entries <+: (processEvent tripStart tripLoc i st).log_entries := by
  unfold processEvent
  have hA : st.log_entries <+:
      (if i = 0 ∧ (st.events.getD i default).type = EvType.pickup then
        initialPickupBlock tripStart tripLoc i (st.events.getD i default) st
      else st).log_entries := by
    split
    · exact initialPickupBlock_entries_mono _ _ _ _ _
    · exact List.prefix_rfl
  dsimp only
  split
  · exact List.IsPrefix.trans hA (processPickupEvent_entries_mono _ _ _ _)
  · exact List.IsPrefix.trans hA (processStopEvent_entries_mono _ _ _ _)
  · exact List.IsPrefix.trans hA (processStopEvent_entries_mono _ _ _ _)
  · exact List.IsPrefix.trans hA (processStopEvent_entries_mono _ _ _ _)
  · exact List.IsPrefix.trans hA (processOvernightEvent_entries_mono _ _ _ _)
  · exact List.IsPrefix.trans hA (processResetBreakEvent_entries_mono _ _ _)
  · exact List.IsPrefix.trans hA (processDropoffEvent_entries_mono _ _ _ _)

lemma processEvents_entries_mono (tripStart : ℚ) (tripLoc : Option ℕ) :
    ∀ (fuel i : ℕ) (st : BState),
      st.log_entries <+:
        (processEvents tripStart tripLoc fuel i st).log_entries := by
  intro fuel
  induction fuel with
  | zero => intro i st; exact List.prefix_rfl
  | succ f ih =>
    intro i st
    rw [processEvents]
    split
    · exact List.IsPrefix.trans (processEvent_entries_mono _ _ _ _) (ih _ _)
    · exact List.prefix_rfl

lemma lt_day_next (t : ℚ) : t < 24 * ((dayOf t : ℚ) + 1) := by
  unfold dayOf
  have h := Int.lt_floor_add_one (t / 24)
  have h24 : (0:ℚ) < 24 := by norm_num
  calc t = t / 24 * 24 := by field_simp
    _ < ((⌊t / 24⌋ : ℚ) + 1) * 24 := by exact mul_lt_mul_of_pos_right h h24
    _ = 24 * ((⌊t / 24⌋ : ℚ) + 1) := by ring

/-- When the remaining gap fits inside every hypothetical HOS budget, the
initial driving loop fires no enforcement branch and emits a contiguous
run of `driving` entries covering exactly `[t, endT)`. -/
lemma gapLoopAux_clean (i : ℕ) (tripLoc evLoc : Option ℕ) (notes : String)
    (endT : ℚ) :
    ∀ (n : ℕ) (t : ℚ) (st : BState),
      (dayOf endT + 1 - dayOf t).toNat + 1 ≤ n →
      t ≤ endT →
      st.cycle_driving_hours + (endT - t) ≤ MAX_DRIVING_TIME →
      st.cycle_on_duty_hours + (endT - t) ≤ MAX_ON_DUTY_TIME →
      st.driving_since_last_break + (endT - t) ≤ MAX_DRIVING_BEFORE_BREAK →
      st.total_cycle_hours + (endT - t) ≤ MAX_CYCLE_TIME →
      ∃ u, (gapLoopAux true i tripLoc evLoc notes endT n t st).log_entries
            = st.log_entries ++ u ∧
           (∀ e ∈ u, e.status = DutyStatus.driving) ∧
           coversB u t endT = true ∧
           (t < endT → u ≠ []) := by
  intro n
  induction n with
  | zero => intro t st hfuel; omega
  | succ n ih =>
    intro t st hfuel hle hcd hco hdb htc
    rw [gapLoopAux]
    by_cases ht : t < endT
    · simp only [if_pos ht]
      dsimp only
      have hmin : min (24 * ((dayOf t : ℚ) + 1)) endT - t ≤ endT - t := by
        have := min_le_right (24 * ((dayOf t : ℚ) + 1)) endT
        linarith
      split
      · rename_i hc1
        exfalso
        have h2 := hc1.2
        linarith
      · split
        · rename_i hc2
          exfalso
          linarith
        · split
          · rename_i hc3
            exfalso
            have h2 := hc3.2
            linarith
          · split
            · rename_i hc4
              exfalso
              linarith
            · by_cases hnd : 24 * ((dayOf t : ℚ) + 1) < endT
              · simp only [if_pos hnd]
                have hmeq : min (24 * ((dayOf t : ℚ) + 1)) endT
                    = 24 * ((dayOf t : ℚ) + 1) := min_eq_left (le_of_lt hnd)
                have hfuel' : (dayOf endT + 1 - dayOf (24 * ((dayOf t : ℚ) + 1))).toNat + 1 ≤ n := by
                  rw [dayOf_next]
                  have hm : dayOf t ≤ dayOf endT := dayOf_mono hle
                  omega
                obtain ⟨u', hu', hall', hcov', hne'⟩ := ih (24 * ((dayOf t : ℚ) + 1))
                  { st with
                      daily_logs := dlUpdate (ensureDay st.daily_logs (dayOf t)) (dayOf t)
                        (fun l =>
                          { statusBump l DutyStatus.driving
                              (min (24 * ((dayOf t : ℚ) + 1)) endT - t) with
                              log_data := update_log_grid
                                (statusBump l DutyStatus.driving
                                  (min (24 * ((dayOf t : ℚ) + 1)) endT - t)).log_data
                                t (min (24 * ((dayOf t : ℚ) + 1)) endT)
                                DutyStatus.driving })
                      log_entries := st.log_entries ++
                        [{ start_time := t,
                           end_time := min (24 * ((dayOf t : ℚ) + 1)) endT,
                           status := DutyStatus.driving, location_id := tripLoc,
                           activity := none, notes := notes }]
                      cycle_driving_hours := st.cycle_driving_hours +
                        (min (24 * ((dayOf t : ℚ) + 1)) endT - t)
                      cycle_on_duty_hours := st.cycle_on_duty_hours +
                        (min (24 * ((dayOf t : ℚ) + 1)) endT - t)
                      driving_since_last_break := st.driving_since_last_break +
                        (min (24 * ((dayOf t : ℚ) + 1)) endT - t)
                      total_cycle_hours := st.total_cycle_hours +
                        (min (24 * ((dayOf t : ℚ) + 1)) endT - t)
                      current_odometer := st.current_odometer +
                        (min (24 * ((dayOf t : ℚ) + 1)) endT - t) * AVERAGE_SPEED }
                  hfuel' (le_of_lt hnd)
                  (by dsimp only; rw [hmeq]; linarith)
                  (by dsimp only; rw [hmeq]; linarith)
                  (by dsimp only; rw [hmeq]; linarith)
                  (by dsimp only; rw [hmeq]; linarith)
                refine ⟨{ start_time := t,
                          end_time := min (24 * ((dayOf t : ℚ) + 1)) endT,
                          status := DutyStatus.driving, location_id := tripLoc,
                          activity := none, notes := notes } :: u', ?_, ?_, ?_, ?_⟩
                · exact hu'.trans (List.append_assoc _ _ _)
                · intro e he
                  rcases List.mem_cons.mp he with h | h
                  · rw [h]
                  · exact hall' e h
                · show (decide (t = t) && coversB u'
                    (min (24 * ((dayOf t : ℚ) + 1)) endT) endT) = true
                  rw [hmeq]
                  simp only [decide_eq_true_eq, Bool.and_eq_true]
                  exact ⟨by decide, hcov'⟩
                · intro _
                  exact List.cons_ne_nil _ _
              · simp only [if_neg hnd]
                have hmeq : min (24 * ((dayOf t : ℚ) + 1)) endT = endT :=
                  min_eq_right (le_of_not_lt hnd)
                refine ⟨[{ start_time := t,
                           end_time := min (24 * ((dayOf t : ℚ) + 1)) endT,
                           status := DutyStatus.driving, location_id := tripLoc,
                           activity := none, notes := notes }], rfl, ?_, ?_, ?_⟩
                · intro e he
                  rcases List.mem_singleton.mp he with h
                  rw [h]
                · show (decide (t = t) && coversB []
                    (min (24 * ((dayOf t : ℚ) + 1)) endT) endT) = true
                  rw [hmeq]
                  show (decide (t = t) && decide (endT = endT)) = true
                  simp
                · intro _
                  exact List.cons_ne_nil _ _
    · simp only [if_neg ht]
      have heq : t = endT := le_antisymm hle (le_of_not_lt ht)
      refine ⟨[], by simp, by simp, ?_, fun h => absurd h ht⟩
      show decide (t = endT) = true
      simp [heq]

lemma processEvent_zero_pickup (tripStart : ℚ) (tripLoc : Option ℕ)
    (st : BState) (pe : Event) (rest : List Event)
    (hev : st.events = pe :: rest) (hty : pe.type = EvType.pickup) :
    processEvent tripStart tripLoc 0 st =
      processPickupEvent tripLoc 0 pe
        (initialPickupBlock tripStart tripLoc 0 pe st) := by
  unfold processEvent
  rw [hev]
  simp only [List.getD_cons_zero]
  rw [if_pos ⟨trivial, hty⟩]
  rw [hty]

/-- C7 (amended): when the trip starts strictly before the pickup arrival
and the gap fits inside every hours-of-service budget, the builder logs the
whole pre-pickup span `[trip.start_time, pickup.time)` as a non-empty
contiguous run of entries whose status is `driving` (lines 339-448) — the
travel to the pickup is charged as driving time, not as off-duty time. -/
theorem pre_pickup_gap_is_driving (tripStart c : ℚ) (tripLoc : Option ℕ)
    (pe : Event) (rest : List Event) (fuel : ℕ)
    (hf : 0 < fuel)
    (hty : pe.type = EvType.pickup)
    (hgap : 0 < pe.time - tripStart)
    (h8 : pe.time - tripStart ≤ MAX_DRIVING_BEFORE_BREAK)
    (h70 : c + (pe.time - tripStart) ≤ MAX_CYCLE_TIME) :
    ∃ u : List LogEntry, u ≠ [] ∧
      u <+: (runBuilder tripStart tripLoc c (pe :: rest) fuel).log_entries ∧
      (∀ e ∈ u, e.status = DutyStatus.driving) ∧
      coversB u tripStart pe.time = true := by
  obtain ⟨f, rfl⟩ : ∃ f, fuel = Nat.succ f := ⟨fuel - 1, by omega⟩
  have h8' : pe.time - tripStart ≤ (8:ℚ) := h8
  obtain ⟨u, hu, hall, hcov, hne⟩ := gapLoopAux_clean 0 tripLoc pe.location
    "Driving to pickup location" pe.time
    ((dayOf pe.time + 1 - dayOf tripStart).toNat + 1) tripStart
    (initialBState tripStart c (pe :: rest))
    (le_refl _) (by linarith)
    (by show (0:ℚ) + (pe.time - tripStart) ≤ (11:ℚ); linarith)
    (by show (0:ℚ) + (pe.time - tripStart) ≤ (14:ℚ); linarith)
    (by show (0:ℚ) + (pe.time - tripStart) ≤ (8:ℚ); linarith)
    (by show c + (pe.time - tripStart) ≤ (70:ℚ); exact h70)
  refine ⟨u, hne (by linarith), ?_, hall, hcov⟩
  show u <+: (processEvents tripStart tripLoc (Nat.succ f) 0
    (initialBState tripStart c (pe :: rest))).log_entries
  rw [processEvents]
  rw [if_pos (show 0 < (initialBState tripStart c (pe :: rest)).events.length
    from by show 0 < (pe :: rest).length; simp)]
  refine List.IsPrefix.trans ?_ (processEvents_entries_mono tripStart tripLoc f _ _)
  rw [processEvent_zero_pickup tripStart tripLoc _ pe rest rfl hty]
  refine List.IsPrefix.trans ?_ (processPickupEvent_entries_mono tripLoc 0 pe _)
  show u <+: (initialPickupBlock tripStart tripLoc 0 pe
    (initialBState tripStart c (pe :: rest))).log_entries
  unfold initialPickupBlock
  rw [if_pos hgap]
  show u <+: (gapLoop true 0 tripLoc pe.location "Driving to pickup location"
    pe.time tripStart (initialBState tripStart c (pe :: rest))).log_entries
  unfold gapLoop
  rw [hu]
  show u <+: [] ++ u
  simp

theorem pre_pickup_gap_is_driving_witness :
    ∃ u : List LogEntry, u ≠ [] ∧
      u <+: (runBuilder 0 none 0 [⟨EvType.pickup, 1, 1, none⟩] 1).log_entries ∧
      (∀ e ∈ u, e.status = DutyStatus.driving) ∧
      coversB u 0 1 = true :=
  pre_pickup_gap_is_driving 0 0 none ⟨EvType.pickup, 1, 1, none⟩ [] 1
    (by decide) (by decide) (by decide) (by decide) (by decide)

lemma fourTotalSum_statusBump (l : DailyLog) (s : DutyStatus) (dur : ℚ) :
    fourTotalSum (statusBump l s dur) =
      fourTotalSum l + dur + (if s = DutyStatus.driving then dur else 0) := by
  cases s <;> simp [fourTotalSum, statusBump] <;> ring

lemma statusBump_driving_total (l : DailyLog) (s : DutyStatus) (dur : ℚ) :
    (statusBump l s dur).total_driving_hours =
      l.total_driving_hours + (if s = DutyStatus.driving then dur else 0) := by
  cases s <;> simp [statusBump]

lemma entriesDaySum_append (es : List LogEntry) (e : LogEntry) (d : ℤ) :
    entriesDaySum (es ++ [e]) d = entriesDaySum es d +
      (if dayOf e.start_time = d then e.end_time - e.start_time else 0) := by
  unfold entriesDaySum
  rw [List.filter_append]
  by_cases h : dayOf e.start_time = d
  · simp [h]
  · simp [h]

lemma drivingDaySum_append (es : List LogEntry) (e : LogEntry) (d : ℤ) :
    drivingDaySum (es ++ [e]) d = drivingDaySum es d +
      (if dayOf e.start_time = d ∧ e.status = DutyStatus.driving then
        e.end_time - e.start_time else 0) := by
  unfold drivingDaySum
  rw [List.filter_append]
  by_cases h : dayOf e.start_time = d ∧ e.status = DutyStatus.driving
  · simp [h]
  · simp [h]

lemma keys_dlUpdate (logs : List (ℤ × DailyLog)) (d : ℤ)
    (f : DailyLog → DailyLog) :
    (dlUpdate logs d f).map Prod.fst = logs.map Prod.fst := by
  unfold dlUpdate
  rw [List.map_map]
  apply List.map_congr_left
  intro p _
  by_cases h : p.1 = d
  · simp [h]
  · simp [h]

lemma keys_ensureDay (logs : List (ℤ × DailyLog)) (d : ℤ) :
    (ensureDay logs d).map Prod.fst = logs.map Prod.fst ∨
    ((ensureDay logs d).map Prod.fst = logs.map Prod.fst ++ [d] ∧
      d ∉ logs.map Prod.fst) := by
  unfold ensureDay
  cases hlk : dlLookup logs d with
  | some l => exact Or.inl rfl
  | none =>
    refine Or.inr ⟨by simp, ?_⟩
    intro hmem
    obtain ⟨p, hp, hpd⟩ := List.mem_map.mp hmem
    unfold dlLookup at hlk
    rw [Option.map_eq_none'] at hlk
    have := List.find?_eq_none.mp hlk p hp
    simp [hpd] at this

lemma dlLookup_eq_none_iff (logs : List (ℤ × DailyLog)) (d : ℤ) :
    dlLookup logs d = none ↔ d ∉ logs.map Prod.fst := by
  unfold dlLookup
  rw [Option.map_eq_none']
  constructor
  · intro h hmem
    obtain ⟨p, hp, hpd⟩ := List.mem_map.mp hmem
    have := List.find?_eq_none.mp h p hp
    simp [hpd] at this
  · intro h
    rw [List.find?_eq_none]
    intro p hp
    simp only [decide_eq_true_eq]
    intro hpd
    exact h (List.mem_map.mpr ⟨p, hp, hpd⟩)

lemma entriesDaySum_of_not_mem (es : List LogEntry) (d : ℤ)
    (h : ∀ e ∈ es, dayOf e.start_time ≠ d) :
    entriesDaySum es d = 0 := by
  unfold entriesDaySum
  have : es.filter (fun e => dayOf e.start_time = d) = [] := by
    rw [List.filter_eq_nil]
    intro e he
    simp only [decide_eq_true_eq]
    exact h e he
  rw [this]
  simp

lemma drivingDaySum_of_not_mem (es : List LogEntry) (d : ℤ)
    (h : ∀ e ∈ es, dayOf e.start_time ≠ d) :
    drivingDaySum es d = 0 := by
  unfold drivingDaySum
  have : es.filter (fun e => dayOf e.start_time = d ∧ e.status = DutyStatus.driving) = [] := by
    rw [List.filter_eq_nil]
    intro e he
    simp only [decide_eq_true_eq]
    intro hc
    exact h e he hc.1
  rw [this]
  simp

lemma keyedTotalsOK_ensureDay (logs : List (ℤ × DailyLog)) (es : List LogEntry)
    (d : ℤ) (h : keyedTotalsOK logs es) :
    keyedTotalsOK (ensureDay logs d) es := by
  obtain ⟨hnd, hpairs, hdays⟩ := h
  unfold ensureDay
  cases hlk : dlLookup logs d with
  | some l => exact ⟨hnd, hpairs, hdays⟩
  | none =>
    have hdnot : d ∉ logs.map Prod.fst := (dlLookup_eq_none_iff logs d).mp hlk
    refine ⟨?_, ?_, ?_⟩
    · rw [List.map_append]
      simp only [List.map_cons, List.map_nil]
      exact List.nodup_append.mpr ⟨hnd, List.nodup_singleton d, by
        intro a ha hb
        rw [List.mem_singleton] at hb
        subst hb
        exact hdnot ha⟩
    · intro p hp
      rcases List.mem_append.mp hp with h1 | h1
      · exact hpairs p h1
      · rw [List.mem_singleton] at h1
        subst h1
        have hnone : ∀ e ∈ es, dayOf e.start_time ≠ d := by
          intro e he hd
          exact hdnot (hd ▸ hdays e he)
        constructor
        · rw [entriesDaySum_of_not_mem es d hnone,
            drivingDaySum_of_not_mem es d hnone]
          show fourTotalSum (initialize_daily_log d (some (d - 1)) logs) = 0 + 0
          simp [fourTotalSum, initialize_daily_log]
        · rw [drivingDaySum_of_not_mem es d hnone]
          show (initialize_daily_log d (some (d - 1)) logs).total_driving_hours = 0
          simp [initialize_daily_log]
    · intro e he
      rw [List.map_append]
      exact List.mem_append_left _ (hdays e he)

lemma keyedTotalsOK_bump (logs : List (ℤ × DailyLog)) (es : List LogEntry)
    (e : LogEntry) (g : DailyLog → List (Option DutyStatus))
    (h : keyedTotalsOK logs es) (hmem : dayOf e.start_time ∈ logs.map Prod.fst) :
    keyedTotalsOK
      (dlUpdate logs (dayOf e.start_time) fun l =>
        { statusBump l e.status (e.end_time - e.start_time) with log_data := g l })
      (es ++ [e]) := by
  obtain ⟨hnd, hpairs, hdays⟩ := h
  refine ⟨?_, ?_, ?_⟩
  · rw [keys_dlUpdate]
    exact hnd
  · intro p hp
    unfold dlUpdate at hp
    obtain ⟨q, hq, hqp⟩ := List.mem_map.mp hp
    obtain ⟨hq1, hq2⟩ := hpairs q hq
    by_cases hqd : q.1 = dayOf e.start_time
    · rw [if_pos hqd] at hqp
      subst hqp
      rw [entriesDaySum_append, drivingDaySum_append]
      constructor
      · show fourTotalSum (statusBump q.2 e.status (e.end_time - e.start_time)) = _
        rw [fourTotalSum_statusBump, hq1]
        by_cases hs : e.status = DutyStatus.driving
        · rw [if_pos hs, if_pos hqd.symm, if_pos ⟨hqd.symm, hs⟩]
          ring
        · rw [if_neg hs, if_pos hqd.symm, if_neg (fun hc => hs hc.2)]
          ring
      · show (statusBump q.2 e.status (e.end_time - e.start_time)).total_driving_hours = _
        rw [statusBump_driving_total, hq2]
        by_cases hs : e.status = DutyStatus.driving
        · rw [if_pos hs, if_pos ⟨hqd.symm, hs⟩]
        · rw [if_neg hs, if_neg (fun hc => hs hc.2)]
    · rw [if_neg hqd] at hqp
      subst hqp
      rw [entriesDaySum_append, drivingDaySum_append]
      have hne : ¬ dayOf e.start_time = q.1 := fun hc => hqd hc.symm
      rw [if_neg hne, if_neg (fun hc => hne hc.1)]
      constructor
      · rw [hq1]; ring
      · rw [hq2]; ring
  · intro e' he'
    rw [keys_dlUpdate]
    rcases List.mem_append.mp he' with h1 | h1
    · exact hdays e' h1
    · rw [List.mem_singleton] at h1
      subst h1
      exact hmem

lemma mem_keys_ensureDay (logs : List (ℤ × DailyLog)) (d : ℤ) :
    d ∈ (ensureDay logs d).map Prod.fst := by
  unfold ensureDay
  cases hlk : dlLookup logs d with
  | some l =>
    unfold dlLookup at hlk
    obtain ⟨p, hfind, hpl⟩ := Option.map_eq_some'.mp hlk
    have hp : p ∈ logs := List.mem_of_find?_eq_some hfind
    have hpd : p.1 = d := by
      have := List.find?_some hfind
      simpa using this
    exact List.mem_map.mpr ⟨p, hp, hpd⟩
  | none => simp

lemma totInv_logSpanAux (status : DutyStatus) (chargeDuty : Bool)
    (loc : Option ℕ) (activity : Option String) (notes : String) (endT : ℚ) :
    ∀ (n : ℕ) (t : ℚ) (st : BState), TotInv st →
      TotInv (logSpanAux status chargeDuty loc activity notes endT n t st).1 := by
  intro n
  induction n with
  | zero => intro t st h; exact h
  | succ n ih =>
    intro t st h
    rw [logSpanAux]
    by_cases ht : t < endT
    · simp only [if_pos ht]
      have hb := keyedTotalsOK_bump (ensureDay st.daily_logs (dayOf t))
        st.log_entries
        { start_time := t, end_time := min (24 * ((dayOf t : ℚ) + 1)) endT,
          status := status, location_id := loc, activity := activity,
          notes := notes }
        (fun l => update_log_grid
          (statusBump l status (min (24 * ((dayOf t : ℚ) + 1)) endT - t)).log_data
          t (min (24 * ((dayOf t : ℚ) + 1)) endT) status)
        (keyedTotalsOK_ensureDay st.daily_logs st.log_entries (dayOf t) h)
        (mem_keys_ensureDay st.daily_logs (dayOf t))
      by_cases hnd : 24 * ((dayOf t : ℚ) + 1) < endT
      · simp only [if_pos hnd]
        exact ih _ _ hb
      · simp only [if_neg hnd]
        exact hb
    · simp only [if_neg ht]
      exact h

lemma totInv_gapLoopAux (initial : Bool) (i : ℕ) (tripLoc evLoc : Option ℕ)
    (notes : String) (endT : ℚ) :
    ∀ (n : ℕ) (t : ℚ) (st : BState),
      (initial = true ∨ st.current_status = DutyStatus.driving) →
      TotInv st →
      TotInv (gapLoopAux initial i tripLoc evLoc notes endT n t st) := by
  intro n
  induction n with
  | zero => intro t st _ h; exact h
  | succ n ih =>
    intro t st hstat h
    rw [gapLoopAux]
    by_cases ht : t < endT
    · simp only [if_pos ht]
      dsimp only
      have hens := keyedTotalsOK_ensureDay st.daily_logs st.log_entries (dayOf t) h
      split
      · exact hens
      · split
        · exact hens
        · split
          · exact hens
          · split
            · exact hens
            · have hdb : (initial ||
                  decide (st.current_status = DutyStatus.driving)) = true := by
                rcases hstat with h1 | h1
                · rw [h1]
                  rfl
                · rw [h1]
                  simp
              have hstatus_eq : (if initial = true then DutyStatus.driving
                  else st.current_status) = DutyStatus.driving := by
                rcases hstat with h1 | h1
                · simp [h1]
                · rw [h1]
                  split <;> rfl
              have hb := keyedTotalsOK_bump (ensureDay st.daily_logs (dayOf t))
                st.log_entries
                { start_time := t,
                  end_time := min (24 * ((dayOf t : ℚ) + 1)) endT,
                  status := DutyStatus.driving,
                  location_id := if initial then tripLoc else evLoc,
                  activity := none, notes := notes }
                (fun l => update_log_grid
                  (statusBump l DutyStatus.driving
                    (min (24 * ((dayOf t : ℚ) + 1)) endT - t)).log_data
                  t (min (24 * ((dayOf t : ℚ) + 1)) endT) DutyStatus.driving)
                (keyedTotalsOK_ensureDay st.daily_logs st.log_entries (dayOf t) h)
                (mem_keys_ensureDay st.daily_logs (dayOf t))
              simp only [hdb]
              rw [hstatus_eq]
              split
              · refine ih _ _ ?_ ?_
                · rcases hstat with h1 | h1
                  · exact Or.inl h1
                  · exact Or.inr h1
                · exact hb
              · exact hb
    · simp only [if_neg ht]
      exact h

lemma totInv_logSpan (status : DutyStatus) (chargeDuty : Bool)
    (loc : Option ℕ) (activity : Option String) (notes : String)
    (endT t : ℚ) (st : BState) (h : TotInv st) :
    TotInv (logSpan status chargeDuty loc activity notes endT t st).1 :=
  totInv_logSpanAux status chargeDuty loc activity notes endT _ t st h

lemma totInv_gapLoop (initial : Bool) (i : ℕ) (tripLoc evLoc : Option ℕ)
    (notes : String) (endT t : ℚ) (st : BState)
    (hstat : initial = true ∨ st.current_status = DutyStatus.driving)
    (h : TotInv st) :
    TotInv (gapLoop initial i tripLoc evLoc notes endT t st) :=
  totInv_gapLoopAux initial i tripLoc evLoc notes endT _ t st hstat h

lemma initialPickupBlock_status (tripStart : ℚ) (tripLoc : Option ℕ) (i : ℕ)
    (ev : Event) (st : BState) :
    (initialPickupBlock tripStart tripLoc i ev st).current_status =
      DutyStatus.driving := rfl

lemma processStopEvent_status (tripLoc : Option ℕ) (i : ℕ) (ev : Event)
    (stA : BState) :
    (processStopEvent tripLoc i ev stA).current_status =
      DutyStatus.driving := rfl

lemma processPickupEvent_status (tripLoc : Option ℕ) (i : ℕ) (ev : Event)
    (stA : BState) :
    (processPickupEvent tripLoc i ev stA).current_status =
      DutyStatus.driving := rfl

lemma processOvernightEvent_status (tripLoc : Option ℕ) (i : ℕ) (ev : Event)
    (stA : BState) :
    (processOvernightEvent tripLoc i ev stA).current_status =
      DutyStatus.driving := rfl

lemma processResetBreakEvent_status (i : ℕ) (ev : Event) (stA : BState) :
    (processResetBreakEvent i ev stA).current_status =
      DutyStatus.driving := rfl

lemma processDropoffEvent_status (tripLoc : Option ℕ) (i : ℕ) (ev : Event)
    (stA : BState) :
    (processDropoffEvent tripLoc i ev stA).current_status =
      DutyStatus.off_duty := rfl

lemma totInv_processStopEvent (tripLoc : Option ℕ) (i : ℕ) (ev : Event)
    (stA : BState) (hstat : stA.current_status = DutyStatus.driving)
    (h : TotInv stA) :
    TotInv (processStopEvent tripLoc i ev stA) := by
  unfold processStopEvent
  dsimp only
  split <;> split
  all_goals first
    | exact totInv_logSpan DutyStatus.off_duty false ev.location none
        (stopNoteFor ev.type) (ev.time + ev.duration) ev.time stA h
    | exact totInv_logSpan DutyStatus.off_duty false ev.location none
        (stopNoteFor ev.type) (ev.time + ev.duration) ev.time
        (gapLoop false i tripLoc ev.location (gapNoteFor ev.type)
          ev.time stA.status_start_time stA)
        (totInv_gapLoop false i tripLoc ev.location (gapNoteFor ev.type)
          ev.time stA.status_start_time stA (Or.inr hstat) h)

lemma totInv_initialPickupBlock (tripStart : ℚ) (tripLoc : Option ℕ) (i : ℕ)
    (ev : Event) (st : BState) (h : TotInv st) :
    TotInv (initialPickupBlock tripStart tripLoc i ev st) := by
  unfold initialPickupBlock
  dsimp only
  split
  · exact totInv_gapLoop true i tripLoc ev.location "Driving to pickup location"
      ev.time tripStart st (Or.inl rfl) h
  · exact h

lemma totInv_processPickupEvent (tripLoc : Option ℕ) (i : ℕ) (ev : Event)
    (stA : BState)
    (hstat : stA.current_status = DutyStatus.driving ∨
      stA.current_status = DutyStatus.on_duty_not_driving)
    (h : TotInv stA) :
    TotInv (processPickupEvent tripLoc i ev stA) := by
  unfold processPickupEvent
  dsimp only
  split
  · rename_i hne
    have hdr : stA.current_status = DutyStatus.driving :=
      hstat.resolve_right hne
    split
    · exact totInv_logSpan DutyStatus.on_duty_not_driving true ev.location
        (some "Loading") "Loading at pickup location" (ev.time + ev.duration)
        ev.time
        ({ (gapLoop false i tripLoc ev.location "En route to pickup"
             ev.time stA.status_start_time stA) with
           current_status := DutyStatus.on_duty_not_driving,
           status_start_time := ev.time })
        (totInv_gapLoop false i tripLoc ev.location "En route to pickup"
          ev.time stA.status_start_time stA (Or.inr hdr) h)
    · exact totInv_logSpan DutyStatus.on_duty_not_driving true ev.location
        (some "Loading") "Loading at pickup location" (ev.time + ev.duration)
        ev.time
        ({ stA with current_status := DutyStatus.on_duty_not_driving,
                    status_start_time := ev.time }) h
  · exact totInv_logSpan DutyStatus.on_duty_not_driving true ev.location
      (some "Loading") "Loading at pickup location" (ev.time + ev.duration)
      ev.time stA h

lemma totInv_processOvernightEvent (tripLoc : Option ℕ) (i : ℕ) (ev : Event)
    (stA : BState) (hstat : stA.current_status = DutyStatus.driving)
    (h : TotInv stA) :
    TotInv (processOvernightEvent tripLoc i ev stA) := by
  unfold processOvernightEvent
  dsimp only
  split <;> split
  all_goals first
    | exact totInv_logSpan DutyStatus.sleeper_berth false ev.location none
        "Overnight stop" (ev.time + ev.duration) ev.time stA h
    | exact totInv_logSpan DutyStatus.sleeper_berth false ev.location none
        "Overnight stop" (ev.time + ev.duration) ev.time
        (gapLoop false i tripLoc ev.location "Driving to overnight stop"
          ev.time stA.status_start_time stA)
        (totInv_gapLoop false i tripLoc ev.location "Driving to overnight stop"
          ev.time stA.status_start_time stA (Or.inr hstat) h)

lemma totInv_processResetBreakEvent (i : ℕ) (ev : Event) (stA : BState)
    (h : TotInv stA) :
    TotInv (processResetBreakEvent i ev stA) := by
  unfold processResetBreakEvent
  dsimp only
  exact totInv_logSpan DutyStatus.off_duty false ev.location none
    "Mandatory HOS reset break" (ev.time + ev.duration) ev.time stA h

lemma totInv_processDropoffEvent (tripLoc : Option ℕ) (i : ℕ) (ev : Event)
    (stA : BState) (hstat : stA.current_status = DutyStatus.driving)
    (h : TotInv stA) :
    TotInv (processDropoffEvent tripLoc i ev stA) := by
  unfold processDropoffEvent
  dsimp only
  split
  · exact totInv_logSpan DutyStatus.on_duty_not_driving true ev.location
      (some "Unloading") "Unloading at delivery location"
      (ev.time + ev.duration) ev.time
      (gapLoop false i tripLoc ev.location "Driving to dropoff"
        ev.time stA.status_start_time stA)
      (totInv_gapLoop false i tripLoc ev.location "Driving to dropoff"
        ev.time stA.status_start_time stA (Or.inr hstat) h)
  · exact totInv_logSpan DutyStatus.on_duty_not_driving true ev.location
      (some "Unloading") "Unloading at delivery location"
      (ev.time + ev.duration) ev.time stA h

lemma totInv_processEvent (tripStart : ℚ) (tripLoc : Option ℕ) (i : ℕ)
    (st : BState)
    (hstat : st.current_status = DutyStatus.driving ∨
      (i = 0 ∧ (st.events.getD i default).type = EvType.pickup))
    (h : TotInv st) :
    TotInv (processEvent tripStart tripLoc i st) := by
  unfold processEvent
  dsimp only
  by_cases hc : i = 0 ∧ (st.events.getD i default).type = EvType.pickup
  · simp only [if_pos hc]
    split
    all_goals rename_i heq
    · exact totInv_processPickupEvent tripLoc i _ _
        (Or.inl (initialPickupBlock_status _ _ _ _ _))
        (totInv_initialPickupBlock tripStart tripLoc i _ st h)
    all_goals rw [hc.2] at heq; cases heq
  · simp only [if_neg hc]
    have hdr : st.current_status = DutyStatus.driving := hstat.resolve_right hc
    split
    · exact totInv_processPickupEvent tripLoc i _ st (Or.inl hdr) h
    · exact totInv_processStopEvent tripLoc i _ st hdr h
    · exact totInv_processStopEvent tripLoc i _ st hdr h
    · exact totInv_processStopEvent tripLoc i _ st hdr h
    · exact totInv_processOvernightEvent tripLoc i _ st hdr h
    · exact totInv_processResetBreakEvent i _ st h
    · exact totInv_processDropoffEvent tripLoc i _ st hdr h

lemma logSpanAux_inserted_events (status : DutyStatus) (chargeDuty : Bool)
    (loc : Option ℕ) (activity : Option String) (notes : String) (endT : ℚ) :
    ∀ (n : ℕ) (t : ℚ) (st : BState),
      (logSpanAux status chargeDuty loc activity notes endT n t st).1.inserted
          = st.inserted ∧
      (logSpanAux status chargeDuty loc activity notes endT n t st).1.events
          = st.events := by
  intro n
  induction n with
  | zero => intro t st; exact ⟨rfl, rfl⟩
  | succ n ih =>
    intro t st
    rw [logSpanAux]
    by_cases ht : t < endT
    · simp only [if_pos ht]
      by_cases hnd : 24 * ((dayOf t : ℚ) + 1) < endT
      · simp only [if_pos hnd]
        exact ih _ _
      · simp only [if_neg hnd]
        exact ⟨by trivial, by trivial⟩
    · simp only [if_neg ht]
      exact ⟨by trivial, by trivial⟩

lemma logSpan_inserted (status : DutyStatus) (chargeDuty : Bool)
    (loc : Option ℕ) (activity : Option String) (notes : String)
    (endT t : ℚ) (st : BState) :
    (logSpan status chargeDuty loc activity notes endT t st).1.inserted
        = st.inserted ∧
    (logSpan status chargeDuty loc activity notes endT t st).1.events
        = st.events :=
  logSpanAux_inserted_events status chargeDuty loc activity notes endT _ t st

lemma gapLoopAux_inserted_mono (initial : Bool) (i : ℕ)
    (tripLoc evLoc : Option ℕ) (notes : String) (endT : ℚ) :
    ∀ (n : ℕ) (t : ℚ) (st : BState),
      st.inserted ≤
        (gapLoopAux initial i tripLoc evLoc notes endT n t st).inserted := by
  intro n
  induction n with
  | zero => intro t st; exact le_refl _
  | succ n ih =>
    intro t st
    rw [gapLoopAux]
    by_cases ht : t < endT
    · simp only [if_pos ht]
      split
      · exact Nat.le_succ _
      · split
        · exact Nat.le_succ _
        · split
          · exact Nat.le_succ _
          · split
            · exact Nat.le_succ _
            · split
              · split
                · refine le_trans ?_ (ih _ _)
                  exact le_of_eq rfl
                · refine le_trans ?_ (ih _ _)
                  exact le_of_eq rfl
              · split
                · exact le_of_eq rfl
                · exact le_of_eq rfl
    · simp only [if_neg ht]
      exact le_refl _

lemma gapLoopAux_no_insert_events (initial : Bool) (i : ℕ)
    (tripLoc evLoc : Option ℕ) (notes : String) (endT : ℚ) :
    ∀ (n : ℕ) (t : ℚ) (st : BState),
      (gapLoopAux initial i tripLoc evLoc notes endT n t st).inserted
          = st.inserted →
      (gapLoopAux initial i tripLoc evLoc notes endT n t st).events
          = st.events := by
  intro n
  induction n with
  | zero => intro t st _; rfl
  | succ n ih =>
    intro t st
    rw [gapLoopAux]
    by_cases ht : t < endT
    · simp only [if_pos ht]
      split
      · intro hins
        exfalso
        have h1 : st.inserted + 1 = st.inserted := hins
        omega
      · split
        · intro hins
          exfalso
          have h1 : st.inserted + 1 = st.inserted := hins
          omega
        · split
          · intro hins
            exfalso
            have h1 : st.inserted + 1 = st.inserted := hins
            omega
          · split
            · intro hins
              exfalso
              have h1 : st.inserted + 1 = st.inserted := hins
              omega
            · split
              · split
                · intro hins
                  exact ih _ _ hins
                · intro hins
                  exact ih _ _ hins
              · split
                · intro _
                  trivial
                · intro _
                  trivial
    · simp only [if_neg ht]
      intro _
      trivial

lemma gapLoop_inserted_mono (initial : Bool) (i : ℕ)
    (tripLoc evLoc : Option ℕ) (notes : String) (endT t : ℚ) (st : BState) :
    st.inserted ≤ (gapLoop initial i tripLoc evLoc notes endT t st).inserted :=
  gapLoopAux_inserted_mono initial i tripLoc evLoc notes endT _ t st

lemma gapLoop_no_insert_events (initial : Bool) (i : ℕ)
    (tripLoc evLoc : Option ℕ) (notes : String) (endT t : ℚ) (st : BState)
    (h : (gapLoop initial i tripLoc evLoc notes endT t st).inserted
      = st.inserted) :
    (gapLoop initial i tripLoc evLoc notes endT t st).events = st.events :=
  gapLoopAux_no_insert_events initial i tripLoc evLoc notes endT _ t st h

lemma processStopEvent_inserted_mono (tripLoc : Option ℕ) (i : ℕ) (ev : Event)
    (stA : BState) :
    stA.inserted ≤ (processStopEvent tripLoc i ev stA).inserted := by
  unfold processStopEvent
  dsimp only
  split <;> split
  all_goals first
    | exact le_of_eq (logSpan_inserted DutyStatus.off_duty false ev.location
        none (stopNoteFor ev.type) (ev.time + ev.duration) ev.time stA).1.symm
    | exact le_trans
        (gapLoop_inserted_mono false i tripLoc ev.location (gapNoteFor ev.type)
          ev.time stA.status_start_time stA)
        (le_of_eq (logSpan_inserted DutyStatus.off_duty false ev.location none
          (stopNoteFor ev.type) (ev.time + ev.duration) ev.time
          (gapLoop false i tripLoc ev.location (gapNoteFor ev.type)
            ev.time stA.status_start_time stA)).1.symm)

lemma processStopEvent_no_insert_events (tripLoc : Option ℕ) (i : ℕ)
    (ev : Event) (stA : BState)
    (hins : (processStopEvent tripLoc i ev stA).inserted = stA.inserted) :
    (processStopEvent tripLoc i ev stA).events = stA.events := by
  unfold processStopEvent at hins ⊢
  dsimp only at hins ⊢
  revert hins
  split <;> split
  all_goals intro hins
  all_goals first
    | exact (logSpan_inserted DutyStatus.off_duty false ev.location
        none (stopNoteFor ev.type) (ev.time + ev.duration) ev.time stA).2
    | · have h1 : (gapLoop false i tripLoc ev.location (gapNoteFor ev.type)
            ev.time stA.status_start_time stA).inserted = stA.inserted :=
          ((logSpan_inserted DutyStatus.off_duty false ev.location none
            (stopNoteFor ev.type) (ev.time + ev.duration) ev.time
            (gapLoop false i tripLoc ev.location (gapNoteFor ev.type)
              ev.time stA.status_start_time stA)).1).symm.trans hins
        exact ((logSpan_inserted DutyStatus.off_duty false ev.location none
          (stopNoteFor ev.type) (ev.time + ev.duration) ev.time
          (gapLoop false i tripLoc ev.location (gapNoteFor ev.type)
            ev.time stA.status_start_time stA)).2).trans
          (gapLoop_no_insert_events false i tripLoc ev.location
            (gapNoteFor ev.type) ev.time stA.status_start_time stA h1)

lemma initialPickupBlock_inserted_mono (tripStart : ℚ) (tripLoc : Option ℕ)
    (i : ℕ) (ev : Event) (st : BState) :
    st.inserted ≤ (initialPickupBlock tripStart tripLoc i ev st).inserted := by
  unfold initialPickupBlock
  dsimp only
  split
  · exact gapLoop_inserted_mono true i tripLoc ev.location
      "Driving to pickup location" ev.time tripStart st
  · exact le_of_eq rfl

lemma initialPickupBlock_no_insert_events (tripStart : ℚ) (tripLoc : Option ℕ)
    (i : ℕ) (ev : Event) (st : BState)
    (hins : (initialPickupBlock tripStart tripLoc i ev st).inserted
      = st.inserted) :
    (initialPickupBlock tripStart tripLoc i ev st).events = st.events := by
  unfold initialPickupBlock at hins ⊢
  dsimp only at hins ⊢
  revert hins
  split
  · intro hins
    exact gapLoop_no_insert_events true i tripLoc ev.location
      "Driving to pickup location" ev.time tripStart st hins
  · intro _
    rfl

lemma processPickupEvent_inserted_mono (tripLoc : Option ℕ) (i : ℕ)
    (ev : Event) (stA : BState) :
    stA.inserted ≤ (processPickupEvent tripLoc i ev stA).inserted := by
  unfold processPickupEvent
  dsimp only
  split
  · split
    · exact le_trans
        (gapLoop_inserted_mono false i tripLoc ev.location "En route to pickup"
          ev.time stA.status_start_time stA)
        (le_of_eq (logSpan_inserted DutyStatus.on_duty_not_driving true
          ev.location (some "Loading") "Loading at pickup location"
          (ev.time + ev.duration) ev.time
          ({ (gapLoop false i tripLoc ev.location "En route to pickup"
               ev.time stA.status_start_time stA) with
             current_status := DutyStatus.on_duty_not_driving,
             status_start_time := ev.time })).1.symm)
    · exact le_of_eq (logSpan_inserted DutyStatus.on_duty_not_driving true
        ev.location (some "Loading") "Loading at pickup location"
        (ev.time + ev.duration) ev.time
        ({ stA with current_status := DutyStatus.on_duty_not_driving,
                    status_start_time := ev.time })).1.symm
  · exact le_of_eq (logSpan_inserted DutyStatus.on_duty_not_driving true
      ev.location (some "Loading") "Loading at pickup location"
      (ev.time + ev.duration) ev.time stA).1.symm

lemma processPickupEvent_no_insert_events (tripLoc : Option ℕ) (i : ℕ)
    (ev : Event) (stA : BState)
    (hins : (processPickupEvent tripLoc i ev stA).inserted = stA.inserted) :
    (processPickupEvent tripLoc i ev stA).events = stA.events := by
  unfold processPickupEvent at hins ⊢
  dsimp only at hins ⊢
  revert hins
  split
  · split
    · intro hins
      have h1 : (gapLoop false i tripLoc ev.location "En route to pickup"
            ev.time stA.status_start_time stA).inserted = stA.inserted :=
        ((logSpan_inserted DutyStatus.on_duty_not_driving true ev.location
          (some "Loading") "Loading at pickup location"
          (ev.time + ev.duration) ev.time
          ({ (gapLoop false i tripLoc ev.location "En route to pickup"
               ev.time stA.status_start_time stA) with
             current_status := DutyStatus.on_duty_not_driving,
             status_start_time := ev.time })).1).symm.trans hins
      exact ((logSpan_inserted DutyStatus.on_duty_not_driving true ev.location
        (some "Loading") "Loading at pickup location"
        (ev.time + ev.duration) ev.time
        ({ (gapLoop false i tripLoc ev.location "En route to pickup"
             ev.time stA.status_start_time stA) with
           current_status := DutyStatus.on_duty_not_driving,
           status_start_time := ev.time })).2).trans
        (gapLoop_no_insert_events false i tripLoc ev.location
          "En route to pickup" ev.time stA.status_start_time stA h1)
    · intro _
      exact (logSpan_inserted DutyStatus.on_duty_not_driving true ev.location
        (some "Loading") "Loading at pickup location"
        (ev.time + ev.duration) ev.time
        ({ stA with current_status := DutyStatus.on_duty_not_driving,
                    status_start_time := ev.time })).2
  · intro _
    exact (logSpan_inserted DutyStatus.on_duty_not_driving true ev.location
      (some "Loading") "Loading at pickup location"
      (ev.time + ev.duration) ev.time stA).2

lemma processOvernightEvent_inserted_mono (tripLoc : Option ℕ) (i : ℕ)
    (ev : Event) (stA : BState) :
    stA.inserted ≤ (processOvernightEvent tripLoc i ev stA).inserted := by
  unfold processOvernightEvent
  dsimp only
  split <;> split
  all_goals first
    | exact le_of_eq (logSpan_inserted DutyStatus.sleeper_berth false
        ev.location none "Overnight stop" (ev.time + ev.duration) ev.time
        stA).1.symm
    | exact le_trans
        (gapLoop_inserted_mono false i tripLoc ev.location
          "Driving to overnight stop" ev.time stA.status_start_time stA)
        (le_of_eq (logSpan_inserted DutyStatus.sleeper_berth false ev.location
          none "Overnight stop" (ev.time + ev.duration) ev.time
          (gapLoop false i tripLoc ev.location "Driving to overnight stop"
            ev.time stA.status_start_time stA)).1.symm)

lemma processOvernightEvent_no_insert_events (tripLoc : Option ℕ) (i : ℕ)
    (ev : Event) (stA : BState)
    (hins : (processOvernightEvent tripLoc i ev stA).inserted = stA.inserted) :
    (processOvernightEvent tripLoc i ev stA).events = stA.events := by
  unfold processOvernightEvent at hins ⊢
  dsimp only at hins ⊢
  revert hins
  split <;> split
  all_goals intro hins
  all_goals first
    | exact (logSpan_inserted DutyStatus.sleeper_berth false ev.location
        none "Overnight stop" (ev.time + ev.duration) ev.time stA).2
    | · have h1 : (gapLoop false i tripLoc ev.location
            "Driving to overnight stop"
            ev.time stA.status_start_time stA).inserted = stA.inserted :=
          ((logSpan_inserted DutyStatus.sleeper_berth false ev.location none
            "Overnight stop" (ev.time + ev.duration) ev.time
            (gapLoop false i tripLoc ev.location "Driving to overnight stop"
              ev.time stA.status_start_time stA)).1).symm.trans hins
        exact ((logSpan_inserted DutyStatus.sleeper_berth false ev.location
          none "Overnight stop" (ev.time + ev.duration) ev.time
          (gapLoop false i tripLoc ev.location "Driving to overnight stop"
            ev.time stA.status_start_time stA)).2).trans
          (gapLoop_no_insert_events false i tripLoc ev.location
            "Driving to overnight stop" ev.time stA.status_start_time stA h1)

lemma processResetBreakEvent_inserted_mono (i : ℕ) (ev : Event)
    (stA : BState) :
    stA.inserted ≤ (processResetBreakEvent i ev stA).inserted := by
  unfold processResetBreakEvent
  dsimp only
  exact le_of_eq (logSpan_inserted DutyStatus.off_duty false ev.location none
    "Mandatory HOS reset break" (ev.time + ev.duration) ev.time stA).1.symm

lemma processResetBreakEvent_no_insert_events (i : ℕ) (ev : Event)
    (stA : BState)
    (hins : (processResetBreakEvent i ev stA).inserted = stA.inserted) :
    (processResetBreakEvent i ev stA).events = stA.events := by
  unfold processResetBreakEvent
  exact (logSpan_inserted DutyStatus.off_duty false ev.location none
    "Mandatory HOS reset break" (ev.time + ev.duration) ev.time stA).2

lemma processDropoffEvent_inserted_mono (tripLoc : Option ℕ) (i : ℕ)
    (ev : Event) (stA : BState) :
    stA.inserted ≤ (processDropoffEvent tripLoc i ev stA).inserted := by
  unfold processDropoffEvent
  dsimp only
  split
  · exact le_trans
      (gapLoop_inserted_mono false i tripLoc ev.location "Driving to dropoff"
        ev.time stA.status_start_time stA)
      (le_of_eq (logSpan_inserted DutyStatus.on_duty_not_driving true
        ev.location (some "Unloading") "Unloading at delivery location"
        (ev.time + ev.duration) ev.time
        (gapLoop false i tripLoc ev.location "Driving to dropoff"
          ev.time stA.status_start_time stA)).1.symm)
  · exact le_of_eq (logSpan_inserted DutyStatus.on_duty_not_driving true
      ev.location (some "Unloading") "Unloading at delivery location"
      (ev.time + ev.duration) ev.time stA).1.symm

lemma processDropoffEvent_no_insert_events (tripLoc : Option ℕ) (i : ℕ)
    (ev : Event) (stA : BState)
    (hins : (processDropoffEvent tripLoc i ev stA).inserted = stA.inserted) :
    (processDropoffEvent tripLoc i ev stA).events = stA.events := by
  unfold processDropoffEvent at hins ⊢
  dsimp only at hins ⊢
  revert hins
  split
  · intro hins
    have h1 : (gapLoop false i tripLoc ev.location "Driving to dropoff"
          ev.time stA.status_start_time stA).inserted = stA.inserted :=
      ((logSpan_inserted DutyStatus.on_duty_not_driving true ev.location
        (some "Unloading") "Unloading at delivery location"
        (ev.time + ev.duration) ev.time
        (gapLoop false i tripLoc ev.location "Driving to dropoff"
          ev.time stA.status_start_time stA)).1).symm.trans hins
    exact ((logSpan_inserted DutyStatus.on_duty_not_driving true ev.location
      (some "Unloading") "Unloading at delivery location"
      (ev.time + ev.duration) ev.time
      (gapLoop false i tripLoc ev.location "Driving to dropoff"
        ev.time stA.status_start_time stA)).2).trans
      (gapLoop_no_insert_events false i tripLoc ev.location
        "Driving to dropoff" ev.time stA.status_start_time stA h1)
  · intro _
    exact (logSpan_inserted DutyStatus.on_duty_not_driving true ev.location
      (some "Unloading") "Unloading at delivery location"
      (ev.time + ev.duration) ev.time stA).2

lemma no_insert_compose {st stA stP : BState}
    (hins : stP.inserted = st.inserted)
    (hmonoP : stA.inserted ≤ stP.inserted)
    (hmono1 : st.inserted ≤ stA.inserted)
    (hPev : stP.inserted = stA.inserted → stP.events = stA.events)
    (hAev : stA.inserted = st.inserted → stA.events = st.events) :
    stP.events = st.events := by
  have h1 : stP.inserted = stA.inserted := by omega
  have h2 : stA.inserted = st.inserted := by omega
  exact (hPev h1).trans (hAev h2)

lemma processEvent_inserted_mono (tripStart : ℚ) (tripLoc : Option ℕ)
    (i : ℕ) (st : BState) :
    st.inserted ≤ (processEvent tripStart tripLoc i st).inserted := by
  unfold processEvent
  dsimp only
  by_cases hc : i = 0 ∧ (st.events.getD i default).type = EvType.pickup
  · simp only [if_pos hc]
    split
    · refine le_trans ?_ (processPickupEvent_inserted_mono _ _ _ _)
      exact initialPickupBlock_inserted_mono tripStart tripLoc _ _ st
    · refine le_trans ?_ (processStopEvent_inserted_mono _ _ _ _)
      exact initialPickupBlock_inserted_mono tripStart tripLoc _ _ st
    · refine le_trans ?_ (processStopEvent_inserted_mono _ _ _ _)
      exact initialPickupBlock_inserted_mono tripStart tripLoc _ _ st
    · refine le_trans ?_ (processStopEvent_inserted_mono _ _ _ _)
      exact initialPickupBlock_inserted_mono tripStart tripLoc _ _ st
    · refine le_trans ?_ (processOvernightEvent_inserted_mono _ _ _ _)
      exact initialPickupBlock_inserted_mono tripStart tripLoc _ _ st
    · refine le_trans ?_ (processResetBreakEvent_inserted_mono _ _ _)
      exact initialPickupBlock_inserted_mono tripStart tripLoc _ _ st
    · refine le_trans ?_ (processDropoffEvent_inserted_mono _ _ _ _)
      exact initialPickupBlock_inserted_mono tripStart tripLoc _ _ st
  · simp only [if_neg hc]
    split
    · exact processPickupEvent_inserted_mono _ _ _ _
    · exact processStopEvent_inserted_mono _ _ _ _
    · exact processStopEvent_inserted_mono _ _ _ _
    · exact processStopEvent_inserted_mono _ _ _ _
    · exact processOvernightEvent_inserted_mono _ _ _ _
    · exact processResetBreakEvent_inserted_mono _ _ _
    · exact processDropoffEvent_inserted_mono _ _ _ _

lemma processEvent_no_insert_events (tripStart : ℚ) (tripLoc : Option ℕ)
    (i : ℕ) (st : BState)
    (hins : (processEvent tripStart tripLoc i st).inserted = st.inserted) :
    (processEvent tripStart tripLoc i st).events = st.events := by
  unfold processEvent at hins ⊢
  dsimp only at hins ⊢
  revert hins
  by_cases hc : i = 0 ∧ (st.events.getD i default).type = EvType.pickup
  · simp only [if_pos hc]
    split
    all_goals intro hins
    · exact no_insert_compose hins (processPickupEvent_inserted_mono _ _ _ _)
        (initialPickupBlock_inserted_mono tripStart tripLoc _ _ st)
        (processPickupEvent_no_insert_events _ _ _ _)
        (fun h => initialPickupBlock_no_insert_events tripStart tripLoc _ _ st h)
    · exact no_insert_compose hins (processStopEvent_inserted_mono _ _ _ _)
        (initialPickupBlock_inserted_mono tripStart tripLoc _ _ st)
        (processStopEvent_no_insert_events _ _ _ _)
        (fun h => initialPickupBlock_no_insert_events tripStart tripLoc _ _ st h)
    · exact no_insert_compose hins (processStopEvent_inserted_mono _ _ _ _)
        (initialPickupBlock_inserted_mono tripStart tripLoc _ _ st)
        (processStopEvent_no_insert_events _ _ _ _)
        (fun h => initialPickupBlock_no_insert_events tripStart tripLoc _ _ st h)
    · exact no_insert_compose hins (processStopEvent_inserted_mono _ _ _ _)
        (initialPickupBlock_inserted_mono tripStart tripLoc _ _ st)
        (processStopEvent_no_insert_events _ _ _ _)
        (fun h => initialPickupBlock_no_insert_events tripStart tripLoc _ _ st h)
    · exact no_insert_compose hins (processOvernightEvent_inserted_mono _ _ _ _)
        (initialPickupBlock_inserted_mono tripStart tripLoc _ _ st)
        (processOvernightEvent_no_insert_events _ _ _ _)
        (fun h => initialPickupBlock_no_insert_events tripStart tripLoc _ _ st h)
    · exact no_insert_compose hins (processResetBreakEvent_inserted_mono _ _ _)
        (initialPickupBlock_inserted_mono tripStart tripLoc _ _ st)
        (processResetBreakEvent_no_insert_events _ _ _)
        (fun h => initialPickupBlock_no_insert_events tripStart tripLoc _ _ st h)
    · exact no_insert_compose hins (processDropoffEvent_inserted_mono _ _ _ _)
        (initialPickupBlock_inserted_mono tripStart tripLoc _ _ st)
        (processDropoffEvent_no_insert_events _ _ _ _)
        (fun h => initialPickupBlock_no_insert_events tripStart tripLoc _ _ st h)
  · simp only [if_neg hc]
    split
    all_goals intro hins
    · exact processPickupEvent_no_insert_events _ _ _ _ hins
    · exact processStopEvent_no_insert_events _ _ _ _ hins
    · exact processStopEvent_no_insert_events _ _ _ _ hins
    · exact processStopEvent_no_insert_events _ _ _ _ hins
    · exact processOvernightEvent_no_insert_events _ _ _ _ hins
    · exact processResetBreakEvent_no_insert_events _ _ _ hins
    · exact processDropoffEvent_no_insert_events _ _ _ _ hins

lemma processEvents_inserted_mono (tripStart : ℚ) (tripLoc : Option ℕ) :
    ∀ (fuel i : ℕ) (st : BState),
      st.inserted ≤ (processEvents tripStart tripLoc fuel i st).inserted := by
  intro fuel
  induction fuel with
  | zero => intro i st; exact le_refl _
  | succ f ih =>
    intro i st
    rw [processEvents]
    split
    · exact le_trans (processEvent_inserted_mono tripStart tripLoc i st)
        (ih _ _)
    · exact le_refl _

lemma processEvent_status (tripStart : ℚ) (tripLoc : Option ℕ) (i : ℕ)
    (st : BState) :
    (processEvent tripStart tripLoc i st).current_status =
        DutyStatus.driving ∨
      ((st.events.getD i default).type = EvType.dropoff ∧
        (processEvent tripStart tripLoc i st).current_status =
          DutyStatus.off_duty) := by
  unfold processEvent
  dsimp only
  by_cases hc : i = 0 ∧ (st.events.getD i default).type = EvType.pickup
  · simp only [if_pos hc]
    split
    · exact Or.inl (processPickupEvent_status _ _ _ _)
    · exact Or.inl (processStopEvent_status _ _ _ _)
    · exact Or.inl (processStopEvent_status _ _ _ _)
    · exact Or.inl (processStopEvent_status _ _ _ _)
    · exact Or.inl (processOvernightEvent_status _ _ _ _)
    · exact Or.inl (processResetBreakEvent_status _ _ _)
    · rename_i heq
      exact Or.inr ⟨heq, processDropoffEvent_status _ _ _ _⟩
  · simp only [if_neg hc]
    split
    · exact Or.inl (processPickupEvent_status _ _ _ _)
    · exact Or.inl (processStopEvent_status _ _ _ _)
    · exact Or.inl (processStopEvent_status _ _ _ _)
    · exact Or.inl (processStopEvent_status _ _ _ _)
    · exact Or.inl (processOvernightEvent_status _ _ _ _)
    · exact Or.inl (processResetBreakEvent_status _ _ _)
    · rename_i heq
      exact Or.inr ⟨heq, processDropoffEvent_status _ _ _ _⟩

lemma totInv_initial (tripStart currentCycleHours : ℚ) (events : List Event) :
    TotInv (initialBState tripStart currentCycleHours events) := by
  refine ⟨?_, ?_, ?_⟩
  · show ([(dayOf tripStart, initialize_daily_log (dayOf tripStart) none
      [])].map Prod.fst).Nodup
    simp
  · intro p hp
    have hp' : p ∈ [(dayOf tripStart,
        initialize_daily_log (dayOf tripStart) none [])] := hp
    rw [List.mem_singleton] at hp'
    subst hp'
    constructor
    · show fourTotalSum (initialize_daily_log (dayOf tripStart) none []) =
        entriesDaySum [] (dayOf tripStart) + drivingDaySum [] (dayOf tripStart)
      simp [fourTotalSum, initialize_daily_log, entriesDaySum, drivingDaySum]
    · show (initialize_daily_log (dayOf tripStart) none
          []).total_driving_hours = drivingDaySum [] (dayOf tripStart)
      simp [initialize_daily_log, drivingDaySum]
  · intro e he
    cases he

/-- Main induction for claim C4: along a run of the event loop that inserts
no synthetic events, whose pending events start with the pickup and contain
a dropoff only in last position, the daily-totals invariant `TotInv` is
preserved. -/
lemma totInv_processEvents_clean (tripStart : ℚ) (tripLoc : Option ℕ) :
    ∀ (f i : ℕ) (st : BState),
      (processEvents tripStart tripLoc f i st).inserted = st.inserted →
      TotInv st →
      (st.current_status = DutyStatus.driving ∨ st.events.length ≤ i ∨
        (i = 0 ∧ (st.events.getD 0 default).type = EvType.pickup)) →
      (∀ j, i ≤ j → j + 1 < st.events.length →
        (st.events.getD j default).type ≠ EvType.dropoff) →
      TotInv (processEvents tripStart tripLoc f i st) := by
  intro f
  induction f with
  | zero => intro i st _ hTot _ _; exact hTot
  | succ f ih =>
    intro i st hins hTot hstat hdrop
    rw [processEvents] at hins ⊢
    by_cases hlen : i < st.events.length
    · simp only [if_pos hlen] at hins ⊢
      have hmono1 : st.inserted ≤
          (processEvent tripStart tripLoc i st).inserted :=
        processEvent_inserted_mono tripStart tripLoc i st
      have hmono2 : (processEvent tripStart tripLoc i st).inserted ≤
          (processEvents tripStart tripLoc f (i + 1)
            (processEvent tripStart tripLoc i st)).inserted :=
        processEvents_inserted_mono tripStart tripLoc f (i + 1) _
      have h1 : (processEvent tripStart tripLoc i st).inserted =
          st.inserted := by omega
      have hins' : (processEvents tripStart tripLoc f (i + 1)
          (processEvent tripStart tripLoc i st)).inserted =
          (processEvent tripStart tripLoc i st).inserted := by omega
      have hev : (processEvent tripStart tripLoc i st).events = st.events :=
        processEvent_no_insert_events tripStart tripLoc i st h1
      have hstat1 : st.current_status = DutyStatus.driving ∨
          (i = 0 ∧ (st.events.getD i default).type = EvType.pickup) := by
        rcases hstat with h | h | h
        · exact Or.inl h
        · omega
        · refine Or.inr ⟨h.1, ?_⟩
          rw [h.1]
          exact h.2
      have hTot' : TotInv (processEvent tripStart tripLoc i st) :=
        totInv_processEvent tripStart tripLoc i st hstat1 hTot
      have hstat' : (processEvent tripStart tripLoc i st).current_status =
            DutyStatus.driving ∨
          (processEvent tripStart tripLoc i st).events.length ≤ i + 1 ∨
          (i + 1 = 0 ∧ ((processEvent tripStart tripLoc i
            st).events.getD 0 default).type = EvType.pickup) := by
        rcases processEvent_status tripStart tripLoc i st with h | h
        · exact Or.inl h
        · refine Or.inr (Or.inl ?_)
          rw [hev]
          by_contra hcon
          push_neg at hcon
          exact hdrop i (le_refl i) hcon h.1
      have hdrop' : ∀ j, i + 1 ≤ j →
          j + 1 < (processEvent tripStart tripLoc i st).events.length →
          (((processEvent tripStart tripLoc i st).events.getD j
            default)).type ≠ EvType.dropoff := by
        intro j hj hjl
        rw [hev] at hjl ⊢
        exact hdrop j (by omega) hjl
      exact ih (i + 1) _ hins' hTot' hstat' hdrop'
    · simp only [if_neg hlen]
      exact hTot

lemma sum_map_add {α : Type} (l : List α) (f g : α → ℚ) :
    (l.map fun x => f x + g x).sum = (l.map f).sum + (l.map g).sum := by
  induction l with
  | nil => simp
  | cons a l ih =>
    simp only [List.map_cons, List.sum_cons, ih]
    ring

lemma entriesDaySum_cons (e : LogEntry) (es : List LogEntry) (d : ℤ) :
    entriesDaySum (e :: es) d =
      (if dayOf e.start_time = d then e.end_time - e.start_time else 0) +
        entriesDaySum es d := by
  unfold entriesDaySum
  rw [List.filter_cons]
  by_cases h : dayOf e.start_time = d
  · simp [h]
  · simp [h]

lemma sum_map_ite_single (l : List ℤ) (d0 : ℤ) (x : ℚ)
    (hnd : l.Nodup) (hd0 : d0 ∈ l) :
    (l.map fun d => if d0 = d then x else 0).sum = x := by
  induction l with
  | nil => cases hd0
  | cons a l ih =>
    rw [List.map_cons, List.sum_cons]
    rcases List.mem_cons.mp hd0 with h | h
    · subst h
      rw [if_pos rfl]
      have hz : (l.map fun d => if d0 = d then x else 0).sum = 0 := by
        apply List.sum_eq_zero
        intro y hy
        obtain ⟨d, hd, hdy⟩ := List.mem_map.mp hy
        have hne : d0 ≠ d := fun hc => (List.nodup_cons.mp hnd).1 (hc ▸ hd)
        rw [if_neg hne] at hdy
        exact hdy.symm
      rw [hz, add_zero]
    · have hne : d0 ≠ a := fun hc => (List.nodup_cons.mp hnd).1 (hc ▸ h)
      rw [if_neg hne, zero_add]
      exact ih (List.nodup_cons.mp hnd).2 h

lemma entries_partition (es : List LogEntry) (keys : List ℤ)
    (hnd : keys.Nodup) (hmem : ∀ e ∈ es, dayOf e.start_time ∈ keys) :
    (keys.map fun d => entriesDaySum es d).sum =
      (es.map fun e => e.end_time - e.start_time).sum := by
  induction es with
  | nil =>
    rw [List.map_nil, List.sum_nil]
    apply List.sum_eq_zero
    intro y hy
    obtain ⟨d, _, hdy⟩ := List.mem_map.mp hy
    have h0 : entriesDaySum [] d = 0 := by simp [entriesDaySum]
    rw [h0] at hdy
    exact hdy.symm
  | cons e es ih =>
    rw [List.map_congr_left (fun d _ => entriesDaySum_cons e es d)]
    rw [sum_map_add]
    rw [sum_map_ite_single keys (dayOf e.start_time)
      (e.end_time - e.start_time) hnd (hmem e (by simp))]
    rw [ih (fun e' he' => hmem e' (by simp [he']))]
    rw [List.map_cons, List.sum_cons]

/-- C4 (amended): along any insertion-free run of the Builder's event loop
whose event list starts with the pickup and has a dropoff only in last
position, each daily log's four category totals sum to that day's log-entry
durations PLUS (again) its driving total — every driving interval is added
to both `total_driving_hours` and `total_on_duty_hours` (lines 437-438,
551-552) — and globally the sum of all four-category totals equals the sum
of all entry durations plus the sum of all daily driving totals, not the
elapsed time alone. -/
theorem daily_totals_decompose (tripStart c : ℚ) (tripLoc : Option ℕ)
    (pe : Event) (rest : List Event) (fuel : ℕ)
    (hty : pe.type = EvType.pickup)
    (hdrop : ∀ j, j + 1 < rest.length →
      (rest.getD j default).type ≠ EvType.dropoff)
    (hins : (runBuilder tripStart tripLoc c (pe :: rest) fuel).inserted = 0) :
    (∀ p ∈ (runBuilder tripStart tripLoc c (pe :: rest) fuel).daily_logs,
       fourTotalSum p.2 =
         entriesDaySum
           (runBuilder tripStart tripLoc c (pe :: rest) fuel).log_entries p.1
           + p.2.total_driving_hours) ∧
    ((runBuilder tripStart tripLoc c (pe :: rest) fuel).daily_logs.map
        fun p => fourTotalSum p.2).sum =
      ((runBuilder tripStart tripLoc c (pe :: rest) fuel).log_entries.map
        fun e => e.end_time - e.start_time).sum +
      ((runBuilder tripStart tripLoc c (pe :: rest) fuel).daily_logs.map
        fun p => p.2.total_driving_hours).sum := by
  have hTot : TotInv (runBuilder tripStart tripLoc c (pe :: rest) fuel) := by
    unfold runBuilder
    apply totInv_processEvents_clean
    · exact hins
    · exact totInv_initial tripStart c (pe :: rest)
    · refine Or.inr (Or.inr ⟨rfl, ?_⟩)
      exact hty
    · intro j hj hjl
      cases j with
      | zero =>
        show pe.type ≠ EvType.dropoff
        rw [hty]
        decide
      | succ k =>
        show (rest.getD k default).type ≠ EvType.dropoff
        apply hdrop
        have hjl' : k + 1 + 1 < (pe :: rest).length := hjl
        simp only [List.length_cons] at hjl'
        omega
  unfold TotInv keyedTotalsOK at hTot
  obtain ⟨hnd, hpairs, hdays⟩ := hTot
  constructor
  · intro p hp
    obtain ⟨h1, h2⟩ := hpairs p hp
    rw [h1, h2]
  · rw [List.map_congr_left (fun p hp => (hpairs p hp).1)]
    rw [sum_map_add]
    have hleft :
        ((runBuilder tripStart tripLoc c (pe :: rest) fuel).daily_logs.map
          fun p => entriesDaySum
            (runBuilder tripStart tripLoc c (pe :: rest) fuel).log_entries
            p.1).sum =
        ((runBuilder tripStart tripLoc c
          (pe :: rest) fuel).log_entries.map
            fun e => e.end_time - e.start_time).sum := by
      rw [show ((runBuilder tripStart tripLoc c
          (pe :: rest) fuel).daily_logs.map
            fun p => entriesDaySum (runBuilder tripStart tripLoc c
              (pe :: rest) fuel).log_entries p.1) =
          (((runBuilder tripStart tripLoc c
            (pe :: rest) fuel).daily_logs.map Prod.fst).map
              fun d => entriesDaySum (runBuilder tripStart tripLoc c
                (pe :: rest) fuel).log_entries d) from by
        rw [List.map_map]
        rfl]
      exact entries_partition _ _ hnd hdays
    rw [hleft]
    rw [List.map_congr_left (fun p hp => ((hpairs p hp).2).symm)]

theorem daily_totals_decompose_witness :
    (∀ p ∈ (runBuilder 0 none 0
        [⟨EvType.pickup, 1, 1, none⟩, ⟨EvType.dropoff, 3, 1, none⟩]
        2).daily_logs,
       fourTotalSum p.2 =
         entriesDaySum (runBuilder 0 none 0
           [⟨EvType.pickup, 1, 1, none⟩, ⟨EvType.dropoff, 3, 1, none⟩]
           2).log_entries p.1 + p.2.total_driving_hours) ∧
    ((runBuilder 0 none 0
        [⟨EvType.pickup, 1, 1, none⟩, ⟨EvType.dropoff, 3, 1, none⟩]
        2).daily_logs.map fun p => fourTotalSum p.2).sum =
      ((runBuilder 0 none 0
        [⟨EvType.pickup, 1, 1, none⟩, ⟨EvType.dropoff, 3, 1, none⟩]
        2).log_entries.map fun e => e.end_time - e.start_time).sum +
      ((runBuilder 0 none 0
        [⟨EvType.pickup, 1, 1, none⟩, ⟨EvType.dropoff, 3, 1, none⟩]
        2).daily_logs.map fun p => p.2.total_driving_hours).sum :=
  daily_totals_decompose 0 0 none ⟨EvType.pickup, 1, 1, none⟩
    [⟨EvType.dropoff, 3, 1, none⟩] 2 (by decide)
    (by
      intro j hj
      rw [List.length_singleton] at hj
      exact absurd hj (by omega)) (by decide)

end TripPlan
